import Mathlib

/-
Shallow embedding of the fact-resolution / anchor-selection engine of
`xbrl_extract_bs.py` (with its configuration from `config.py`), together
with proofs about its behaviour.

Modelling conventions:
* Python floats are modelled as rationals (ℚ); the claims under study are
  about null-propagation and exact arithmetic identities, not rounding.
* A raw fact point is a record of optional fields; the dynamically-typed
  "end" and "val" entries are modelled as optional JSON scalars so that
  malformed entries (non-string end, non-numeric value) are expressible.
* A `FactStore` models the `facts["facts"]["us-gaap"]` subtree: an
  insertion-ordered mapping tag ↦ (unit ↦ list of points), realised as
  association lists (Python 3.7+ dicts preserve insertion order).
* Raising `ValueError` (from `datetime.strptime`) is modelled with
  `Except Unit`: `.error ()` is "an exception escaped".
* Python string comparison (used by `sorted` keys and tuple comparison)
  is code-point lexicographic; `pyStrLt` embeds it directly.
-/

namespace Rx

/-! ## JSON-ish scalars and raw fact points -/

/-- A dynamically-typed JSON scalar as found in the raw companyfacts data. -/
inductive JVal where
  | num (v : ℚ)
  | str (s : String)
  | null
deriving DecidableEq, Repr

/-- One raw entry of a unit series: the fields the engine reads via
`pt.get(...)`.  `endv`/`val` keep their dynamic type; the remaining fields
are only ever read as strings by the engine. -/
structure RawPt where
  endv  : Option JVal := none
  val   : Option JVal := none
  filed : Option String := none
  fp    : Option String := none
  form  : Option String := none
  accn  : Option String := none
deriving DecidableEq, Repr

/-- The `facts["facts"]["us-gaap"]` subtree: tag ↦ unit ↦ list of points. -/
structure FactStore where
  tags : List (String × List (String × List RawPt))
deriving DecidableEq, Repr

/-- `_iter_tag_points`: all `(unit, pt)` pairs under a tag, in order;
a missing tag yields no points. -/
def iter_tag_points (facts : FactStore) (tag : String) : List (String × RawPt) :=
  match facts.tags.lookup tag with
  | none => []
  | some units => units.flatMap (fun u => u.2.map (fun pt => (u.1, pt)))

/-- Python `s[:n]` (slicing by code points, i.e. by characters). -/
def pyTake (s : String) (n : ℕ) : String := String.mk (s.data.take n)

/-- Python `len(s)` (code points). -/
def pyLen (s : String) : ℕ := s.data.length

/-- `_as_iso10` applied to a dynamic value: `None` unless a string of
length ≥ 10, else its first 10 characters. -/
def as_iso10J : Option JVal → Option String
  | some (.str s) => if 10 ≤ pyLen s then some (pyTake s 10) else none
  | _ => none

/-- `_as_iso10` applied to an optional string field. -/
def as_iso10S : Option String → Option String
  | some s => if 10 ≤ pyLen s then some (pyTake s 10) else none
  | none => none

/-- Python's `x or None` on an optional string: empty string is falsy. -/
def orNone : Option String → Option String
  | some s => if s = "" then none else some s
  | none => none

/-- Python's `x or ""` on an optional string. -/
def orEmpty : Option String → String
  | some s => s
  | none => ""

/-- Python `str.upper()` (the engine only applies it to ASCII form names). -/
def pyUpper (s : String) : String := String.mk (s.data.map Char.toUpper)

/-! ## Python string order (code-point lexicographic) -/

/-- Char comparison by code point, as Python compares characters. -/
def chLt (a b : Char) : Bool := a.toNat < b.toNat

/-- Lexicographic order on char lists, embedding Python's `str <`. -/
def charsLt : List Char → List Char → Bool
  | _, [] => false
  | [], _ :: _ => true
  | a :: as, b :: bs => chLt a b || (a == b && charsLt as bs)

/-- Python string `<`. -/
def pyStrLt (a b : String) : Bool := charsLt a.data b.data

/-! ## Dates: `datetime.strptime(s[:10], "%Y-%m-%d").date()` -/

structure Date where
  y : ℕ
  m : ℕ
  d : ℕ
deriving DecidableEq, Repr

def isLeap (y : ℕ) : Bool := (y % 4 == 0 && y % 100 != 0) || (y % 400 == 0)

def daysInMonth (y m : ℕ) : ℕ :=
  match m with
  | 2 => if isLeap y then 29 else 28
  | 4 => 30
  | 6 => 30
  | 9 => 30
  | 11 => 30
  | _ => 31

/-- `datetime.date` construction: validates year ≥ 1 (MINYEAR), month
1..12 and day within the month.  (Year ≤ 9999 is automatic here: the
format only ever supplies 4-digit years.) -/
def mkDate (y m d : ℕ) : Option Date :=
  if 1 ≤ y ∧ 1 ≤ m ∧ m ≤ 12 ∧ 1 ≤ d ∧ d ≤ daysInMonth y m then some ⟨y, m, d⟩ else none

def dig? (c : Char) : Option ℕ := if c.isDigit then some (c.toNat - 48) else none

def num4 (a b c d : Char) : Option ℕ :=
  match dig? a, dig? b, dig? c, dig? d with
  | some x, some y, some z, some w => some (1000 * x + 100 * y + 10 * z + w)
  | _, _, _, _ => none

def num2 (a b : Char) : Option ℕ :=
  match dig? a, dig? b with
  | some x, some y => some (10 * x + y)
  | _, _ => none

/-- strptime `%m` over two digits: regex `1[0-2]|0[1-9]` ⇒ value 1..12. -/
def month2 (a b : Char) : Option ℕ :=
  match num2 a b with
  | some m => if 1 ≤ m ∧ m ≤ 12 then some m else none
  | none => none

/-- strptime `%m` over one digit: regex `[1-9]` ⇒ value 1..9. -/
def month1 (a : Char) : Option ℕ :=
  match dig? a with
  | some m => if 1 ≤ m then some m else none
  | none => none

/-- strptime `%d` over two digits: regex `3[01]|[12]\d|0[1-9]` ⇒ 1..31. -/
def day2 (a b : Char) : Option ℕ :=
  match num2 a b with
  | some d => if 1 ≤ d ∧ d ≤ 31 then some d else none
  | none => none

/-- strptime `%d` over one digit: regex `[1-9]` ⇒ 1..9. -/
def day1 (a : Char) : Option ℕ :=
  match dig? a with
  | some d => if 1 ≤ d then some d else none
  | none => none

/-- Combine parsed year/month/day options into a validated date. -/
def ymdOf (yv mv dv : Option ℕ) : Option Date :=
  match yv, mv, dv with
  | some y, some m, some d => mkDate y m d
  | _, _, _ => none

/-- `strptime(s, "%Y-%m-%d")` must consume the whole string: a 4-digit
year, a dash, a 1-2 digit month, a dash and a 1-2 digit day (the 9-char
shape is disambiguated by the dash positions, as the regex is), then
`date` validation.  Anything else raises, i.e. parses to `none`. -/
def parseYMD : List Char → Option Date
  | [a, b, c, d, p4, p5, p6, p7] =>
    if p4 = '-' ∧ p6 = '-' then ymdOf (num4 a b c d) (month1 p5) (day1 p7)
    else none
  | [a, b, c, d, p4, p5, p6, p7, p8] =>
    if p4 = '-' ∧ p6 = '-' then ymdOf (num4 a b c d) (month1 p5) (day2 p7 p8)
    else if p4 = '-' ∧ p7 = '-' then ymdOf (num4 a b c d) (month2 p5 p6) (day1 p8)
    else none
  | [a, b, c, d, p4, p5, p6, p7, p8, p9] =>
    if p4 = '-' ∧ p7 = '-' then ymdOf (num4 a b c d) (month2 p5 p6) (day2 p8 p9)
    else none
  | _ => none

/-- The date produced by `_iso_to_date` when it does not raise
(`strptime` sees `s[:10]`). -/
def strptimeYMD (s : String) : Option Date := parseYMD (pyTake s 10).data

/-- `_iso_to_date`: `.error ()` models the `ValueError` that
`datetime.strptime` raises on an unparseable string. -/
def iso_to_date (s : String) : Except Unit Date :=
  match strptimeYMD s with
  | some d => .ok d
  | none => .error ()

/-- Python `date` comparison ((y, m, d) lexicographic). -/
def dateLtB (a b : Date) : Bool :=
  a.y < b.y || (a.y == b.y && (a.m < b.m || (a.m == b.m && a.d < b.d)))

/-- `date.toordinal()`: days before the year. -/
def daysBeforeYear (y : ℕ) : ℕ :=
  365 * (y - 1) + (y - 1) / 4 - (y - 1) / 100 + (y - 1) / 400

/-- `date.toordinal()`: days before the month within a year. -/
def daysBeforeMonth (y m : ℕ) : ℕ :=
  (match m with
   | 1 => 0 | 2 => 31 | 3 => 59 | 4 => 90 | 5 => 120 | 6 => 151
   | 7 => 181 | 8 => 212 | 9 => 243 | 10 => 273 | 11 => 304 | 12 => 334
   | _ => 0)
  + (if 2 < m ∧ isLeap y then 1 else 0)

def toOrdinal (d : Date) : ℕ := daysBeforeYear d.y + daysBeforeMonth d.y d.m + d.d

/-- `(a - b).days` on Python dates. -/
def dateDiffDays (a b : Date) : ℤ := (toOrdinal a : ℤ) - (toOrdinal b : ℤ)

/-! ## Configuration (`config.py`): tag chains and form sets -/

def TAG_CASH : List String :=
  ["CashAndCashEquivalentsAtCarryingValue",
   "CashCashEquivalentsRestrictedCashAndRestrictedCashEquivalents"]
def TAG_LIAB_TOTAL : List String := ["Liabilities"]
def TAG_LIAB_CUR : List String := ["LiabilitiesCurrent"]
def TAG_LIAB_NONCUR : List String := ["LiabilitiesNoncurrent"]
def TAG_ASSETS : List String := ["Assets"]
def TAG_ASSETS_CUR : List String := ["AssetsCurrent"]
def TAG_AR : List String := ["AccountsReceivableNetCurrent", "AccountsReceivableNet"]
def TAG_INV : List String := ["InventoryNet"]
def TAG_DEBT_CUR : List String := ["DebtCurrent"]
def TAG_DEBT_LT : List String := ["LongTermDebtNoncurrent", "LongTermDebt"]
def TAG_OI : List String := ["OperatingIncomeLoss"]
def TAG_INT : List String := ["InterestExpense"]
def TAG_OCF : List String :=
  ["NetCashProvidedByUsedInOperatingActivities",
   "NetCashProvidedByUsedInOperatingActivitiesContinuingOperations"]

def ANCHOR_TAGS : List (List String) :=
  [TAG_CASH, TAG_LIAB_TOTAL, TAG_ASSETS, TAG_LIAB_CUR, TAG_ASSETS_CUR,
   TAG_OI, TAG_INT, TAG_OCF, TAG_DEBT_CUR, TAG_DEBT_LT, TAG_AR, TAG_INV]

/- Python `set`s of form names; the engine only tests membership, so a
list with `∈` is a faithful model. -/
def ANNUAL_FORMS : List String := ["10-K", "20-F", "40-F"]
def QUARTERLY_FORMS : List String := ["10-Q"]

/-! ## Point resolver (`point_for_end`) -/

/-- The `Point` dataclass. (`end` is a Lean keyword, hence `endd`.) -/
structure Point where
  tag : String
  unit : String
  val : ℚ
  endd : String
  filed : Option String
  fp : Option String
  form : Option String
  accn : Option String
deriving DecidableEq, Repr

/-- `isinstance(val, (int, float))` then `float(val)`. -/
def asNum : Option JVal → Option ℚ
  | some (.num v) => some v
  | _ => none

/-- The `score` key inside `point_for_end`:
`(1 if x.unit == prefer_unit else 0, x.tag)`. -/
def scoreOf (prefer_unit : String) (x : Point) : ℕ × String :=
  ((if x.unit = prefer_unit then 1 else 0), x.tag)

/-- Python `<` on score tuples `(int, str)`. -/
def scoreLtB (a b : ℕ × String) : Bool :=
  a.1 < b.1 || (a.1 == b.1 && pyStrLt a.2 b.2)

/-- Construction of the `Point` candidate from a raw entry. -/
def mkPoint (tag unit : String) (pt : RawPt) (e : String) (v : ℚ) : Point :=
  { tag := tag, unit := unit, val := v, endd := e,
    filed := as_iso10S pt.filed, fp := orNone pt.fp,
    form := orNone pt.form, accn := orNone pt.accn }

/-- Loop body of `point_for_end` for one `(unit, pt)` pair of one tag. -/
def considerPt (prefer_unit end_iso tag : String)
    (best : Option Point) (up : String × RawPt) : Option Point :=
  match as_iso10J up.2.endv with
  | none => best
  | some e =>
    if e = end_iso then
      match asNum up.2.val with
      | none => best
      | some v =>
        let cand := mkPoint tag up.1 up.2 e v
        match best with
        | none => some cand
        | some b =>
          if scoreLtB (scoreOf prefer_unit b) (scoreOf prefer_unit cand)
          then some cand else some b
    else best

/-- `point_for_end`: scan every point of every tag in the chain, keep
those at the target period-end with a numeric value, and retain the
best-scoring one (strictly-better candidates replace the current best). -/
def point_for_end (facts : FactStore) (tag_candidates : List String)
    (end_iso : String) (prefer_unit : String := "USD") : Option Point :=
  tag_candidates.foldl
    (fun best tag =>
      (iter_tag_points facts tag).foldl (considerPt prefer_unit end_iso tag) best)
    none

/-- The candidate `point_for_end` would build from one raw entry, if any:
period-end normalizes to the target and the value is numeric. -/
def candOf (end_iso tag : String) (up : String × RawPt) : Option Point :=
  match as_iso10J up.2.endv with
  | none => none
  | some e =>
    if e = end_iso then (asNum up.2.val).map (mkPoint tag up.1 up.2 e) else none

/-- All candidates considered by `point_for_end`, in scan order. -/
def candidatesFor (facts : FactStore) (tag_candidates : List String)
    (end_iso : String) : List Point :=
  tag_candidates.flatMap
    (fun tag => (iter_tag_points facts tag).filterMap (candOf end_iso tag))

/-! ## Anchor selector (`latest_report_end_within_window`) -/

/-- A value of the `ends_meta` dict. -/
structure EndRec where
  form : Option String
  fp : Option String
  filed : Option String
  age_days : ℤ
deriving DecidableEq, Repr

/-- The metadata dict returned together with the chosen end. -/
structure AnchorMeta where
  form : Option String
  fp : Option String
  filed : Option String
  age_days : ℤ
  coverage : ℕ
deriving DecidableEq, Repr

/-- The candidate-generation scan order:
`for tag_list in ANCHOR_TAGS: for tag in tag_list: for _unit, pt in ...`. -/
def anchorPoints (facts : FactStore) : List (String × RawPt) :=
  ANCHOR_TAGS.flatMap (fun tag_list =>
    tag_list.flatMap (fun tag => iter_tag_points facts tag))

/-- `dict.setdefault`: insert at the end only when the key is absent. -/
def setdefault (l : List (String × EndRec)) (k : String) (v : EndRec) :
    List (String × EndRec) :=
  if (l.lookup k).isSome then l else l ++ [(k, v)]

/-- Outcome of one candidate-generation loop iteration: raise
(`ValueError` from `_iso_to_date`), skip (`continue`), or record an end. -/
inductive StepRes where
  | raise
  | skip
  | add (e : String) (r : EndRec)
deriving DecidableEq, Repr

/-- The body of the candidate-generation loop for one `(unit, pt)` pair:
normalize the end, apply the form filter, parse the end (raising on an
unparseable ≥10-character string), and apply the event-date/staleness
window. -/
def candStep (event_d : Date) (max_age_days : ℕ) (allowed_forms : List String)
    (up : String × RawPt) : StepRes :=
  match as_iso10J up.2.endv with
  | none => .skip
  | some e =>
    if pyUpper (orEmpty up.2.form) ≠ "" ∧ pyUpper (orEmpty up.2.form) ∉ allowed_forms
    then .skip
    else
      match strptimeYMD e with
      | none => .raise
      | some end_d =>
        if dateLtB event_d end_d then .skip
        else if dateDiffDays event_d end_d < 0 ∨
            (max_age_days : ℤ) < dateDiffDays event_d end_d then .skip
        else .add e
          { form := orNone up.2.form, fp := orNone up.2.fp,
            filed := as_iso10S up.2.filed,
            age_days := dateDiffDays event_d end_d }

/-- Candidate generation over the anchor points; `.error ()` models the
`ValueError` raised by `_iso_to_date` on an unparseable ≥10-char end. -/
def candGenGo (event_d : Date) (max_age_days : ℕ) (allowed_forms : List String) :
    List (String × RawPt) → List (String × EndRec) →
    Except Unit (List (String × EndRec))
  | [], acc => .ok acc
  | up :: rest, acc =>
    match candStep event_d max_age_days allowed_forms up with
    | .raise => .error ()
    | .skip => candGenGo event_d max_age_days allowed_forms rest acc
    | .add e r =>
      candGenGo event_d max_age_days allowed_forms rest (setdefault acc e r)

/-- The `base_inputs` dict of the coverage scorer, in insertion order. -/
def base_inputs : List (String × List String) :=
  [("cash", TAG_CASH), ("liab", TAG_LIAB_TOTAL), ("assets", TAG_ASSETS),
   ("assets_cur", TAG_ASSETS_CUR), ("liab_cur", TAG_LIAB_CUR), ("ar", TAG_AR),
   ("inv", TAG_INV), ("debt_cur", TAG_DEBT_CUR), ("debt_lt", TAG_DEBT_LT),
   ("oi", TAG_OI), ("int", TAG_INT), ("ocf", TAG_OCF)]

/-- Coverage score of one candidate end date. -/
def coverage (facts : FactStore) (e : String) : ℕ :=
  let liabCov : ℕ :=
    if (point_for_end facts TAG_LIAB_TOTAL e).isSome then 1
    else if (point_for_end facts TAG_LIAB_CUR e).isSome ∧
            (point_for_end facts TAG_LIAB_NONCUR e).isSome then 1 else 0
  let debtCov : ℕ :=
    if (point_for_end facts TAG_DEBT_CUR e).isSome ∨
       (point_for_end facts TAG_DEBT_LT e).isSome then 1 else 0
  let restCov : ℕ := base_inputs.foldl
    (fun cov kv =>
      if kv.1 ∈ ["liab", "debt_cur", "debt_lt"] then cov
      else if (point_for_end facts kv.2 e).isSome then cov + 1 else cov) 0
  liabCov + debtCov + restCov

/-- `sorted(ends_meta.keys(), key=lambda e: (cov e, e))[-1]`.  The keys are
pairwise distinct (`setdefault` never duplicates), so the last element of
the stable sort is the unique maximum under the `(coverage, string)` key,
which this fold computes. -/
def pickBestEnd (cov : String → ℕ) : List String → Option String
  | [] => none
  | e :: es =>
    some (es.foldl (fun b x => if scoreLtB (cov b, b) (cov x, x) then x else b) e)

/-- `latest_report_end_within_window` (a raised `ValueError` propagates). -/
def latest_report_end_within_window (facts : FactStore) (event_iso : String)
    (max_age_days : ℕ) (allowed_forms : List String) :
    Except Unit (Option (String × AnchorMeta)) :=
  match iso_to_date event_iso with
  | .error e => .error e
  | .ok event_d =>
    match candGenGo event_d max_age_days allowed_forms (anchorPoints facts) [] with
    | .error e => .error e
    | .ok ends_meta =>
      match pickBestEnd (coverage facts) (ends_meta.map Prod.fst) with
      | none => .ok none
      | some best_end =>
        match ends_meta.lookup best_end with
        | none => .ok none  -- unreachable: best_end is one of the keys
        | some r =>
          .ok (some (best_end,
            { form := r.form, fp := r.fp, filed := r.filed,
              age_days := r.age_days, coverage := coverage facts best_end }))

/-! ## Derived-concept resolvers -/

/-- The metadata dict attached to a resolved derived value. -/
structure SrcMeta where
  unit : String
  filed : Option String
  fp : Option String
  form : Option String
  accn : Option String
deriving DecidableEq, Repr

def metaOfPoint (p : Point) : SrcMeta :=
  { unit := p.unit, filed := p.filed, fp := p.fp, form := p.form, accn := p.accn }

/-- Python `a or b` on strings ("" is falsy). -/
def pyOrStr (a b : String) : String := if a = "" then b else a

/-- Python `a or b` on optional strings (`None` and "" are falsy). -/
def pyOrOpt (a b : Option String) : Option String :=
  match a with
  | some s => if s = "" then b else some s
  | none => b

/-- `total_liabilities_at_end`; the empty meta dict `{}` is `none`. -/
def total_liabilities_at_end (facts : FactStore) (end_iso : String) :
    Option ℚ × Option String × Option SrcMeta :=
  match point_for_end facts TAG_LIAB_TOTAL end_iso with
  | some p => (some p.val, some p.tag, some (metaOfPoint p))
  | none =>
    match point_for_end facts TAG_LIAB_CUR end_iso,
          point_for_end facts TAG_LIAB_NONCUR end_iso with
    | some lc, some lnc =>
      (some (lc.val + lnc.val), some "LiabilitiesCurrent+LiabilitiesNoncurrent",
       some { unit := pyOrStr lc.unit lnc.unit, filed := pyOrOpt lc.filed lnc.filed,
              fp := pyOrOpt lc.fp lnc.fp, form := pyOrOpt lc.form lnc.form,
              accn := pyOrOpt lc.accn lnc.accn })
    | _, _ => (none, none, none)

/-- `total_debt_at_end`: `val` starts at `0.0` and accumulates whichever
components resolve; `"+".join(used)` labels the result; the meta comes
from the first resolving component. -/
def total_debt_at_end (facts : FactStore) (end_iso : String) :
    Option ℚ × Option String × Option SrcMeta :=
  match point_for_end facts TAG_DEBT_CUR end_iso,
        point_for_end facts TAG_DEBT_LT end_iso with
  | none, none => (none, none, none)
  | some c, none => (some (0 + c.val), some c.tag, some (metaOfPoint c))
  | none, some l => (some (0 + l.val), some l.tag, some (metaOfPoint l))
  | some c, some l =>
    (some (0 + c.val + l.val), some (c.tag ++ "+" ++ l.tag), some (metaOfPoint c))

/-! ## Ratio calculator -/

/-- `safe_div`. -/
def safe_div (a b : Option ℚ) : Option ℚ :=
  match a, b with
  | none, _ => none
  | _, none => none
  | some x, some y => if y = 0 then none else some (x / y)

/-- Python numeric truthiness of an optional value (`None` and 0 falsy). -/
def truthyQ (x : Option ℚ) : Bool :=
  match x with
  | none => false
  | some v => decide (v ≠ 0)

/-- The quick-ratio branch of `_calculate_metrics_for_report`:
primary formula when both cash and receivables resolved, else the
inventory fallback when both of its inputs resolved, all gated on a
truthy (present, nonzero) current-liabilities value. -/
def quick_ratio_of (liab_cur_val cash_val ar_val assets_cur_val inv_val : Option ℚ) :
    Option ℚ :=
  if truthyQ liab_cur_val then
    match cash_val, ar_val with
    | some c, some a => safe_div (some (c + a)) liab_cur_val
    | _, _ =>
      match assets_cur_val, inv_val with
      | some ca, some iv => safe_div (some (ca - iv)) liab_cur_val
      | _, _ => none
  else none

/-- The record built by `_calculate_metrics_for_report`. -/
structure CalcMetrics where
  report_end : String
  report_meta : AnchorMeta
  cash_val : Option ℚ
  cash_tag : Option String
  liab_val : Option ℚ
  liab_tag : Option String
  assets_val : Option ℚ
  assets_tag : Option String
  assets_cur_val : Option ℚ
  assets_cur_tag : Option String
  liab_cur_val : Option ℚ
  liab_cur_tag : Option String
  ar_val : Option ℚ
  ar_tag : Option String
  inv_val : Option ℚ
  inv_tag : Option String
  debt_val : Option ℚ
  debt_tag : Option String
  oi_val : Option ℚ
  oi_tag : Option String
  int_val : Option ℚ
  int_tag : Option String
  ocf_val : Option ℚ
  ocf_tag : Option String
  cash_to_liab : Option ℚ
  current_ratio : Option ℚ
  quick_ratio : Option ℚ
  debt_to_assets : Option ℚ
  interest_coverage : Option ℚ
  ocf_to_debt : Option ℚ
deriving DecidableEq, Repr

/-- `_calculate_metrics_for_report`. -/
def calculate_metrics_for_report (facts : FactStore) (report_end : String)
    (rep_meta : AnchorMeta) : CalcMetrics :=
  let cash_p := point_for_end facts TAG_CASH report_end
  let assets_p := point_for_end facts TAG_ASSETS report_end
  let assets_cur_p := point_for_end facts TAG_ASSETS_CUR report_end
  let liab_cur_p := point_for_end facts TAG_LIAB_CUR report_end
  let ar_p := point_for_end facts TAG_AR report_end
  let inv_p := point_for_end facts TAG_INV report_end
  let oi_p := point_for_end facts TAG_OI report_end
  let int_p := point_for_end facts TAG_INT report_end
  let ocf_p := point_for_end facts TAG_OCF report_end
  let liabR := total_liabilities_at_end facts report_end
  let debtR := total_debt_at_end facts report_end
  let cash_val := cash_p.map Point.val
  let assets_val := assets_p.map Point.val
  let assets_cur_val := assets_cur_p.map Point.val
  let liab_cur_val := liab_cur_p.map Point.val
  let ar_val := ar_p.map Point.val
  let inv_val := inv_p.map Point.val
  let oi_val := oi_p.map Point.val
  let int_val := int_p.map (fun p => |p.val|)
  let ocf_val := ocf_p.map Point.val
  { report_end := report_end
    report_meta := rep_meta
    cash_val := cash_val
    cash_tag := cash_p.map Point.tag
    liab_val := liabR.1
    liab_tag := liabR.2.1
    assets_val := assets_val
    assets_tag := assets_p.map Point.tag
    assets_cur_val := assets_cur_val
    assets_cur_tag := assets_cur_p.map Point.tag
    liab_cur_val := liab_cur_val
    liab_cur_tag := liab_cur_p.map Point.tag
    ar_val := ar_val
    ar_tag := ar_p.map Point.tag
    inv_val := inv_val
    inv_tag := inv_p.map Point.tag
    debt_val := debtR.1
    debt_tag := debtR.2.1
    oi_val := oi_val
    oi_tag := oi_p.map Point.tag
    int_val := int_val
    int_tag := int_p.map Point.tag
    ocf_val := ocf_val
    ocf_tag := ocf_p.map Point.tag
    cash_to_liab := safe_div cash_val liabR.1
    current_ratio := safe_div assets_cur_val liab_cur_val
    quick_ratio := quick_ratio_of liab_cur_val cash_val ar_val assets_cur_val inv_val
    debt_to_assets := safe_div debtR.1 assets_val
    interest_coverage := safe_div oi_val int_val
    ocf_to_debt := safe_div ocf_val debtR.1 }

/-! ## Snapshot assembler (`build_rx_snapshot`) -/

/-- A value of the output record (string-, rational- or integer-valued). -/
inductive OVal where
  | s (v : String)
  | q (v : ℚ)
  | z (v : ℤ)
deriving DecidableEq, Repr

/-- `metrics.get(k)` for the fixed value/tag/ratio keys of the merge loop. -/
def metricGet (m : CalcMetrics) : String → Option OVal
  | "cash_val" => m.cash_val.map OVal.q
  | "cash_tag" => m.cash_tag.map OVal.s
  | "liab_val" => m.liab_val.map OVal.q
  | "liab_tag" => m.liab_tag.map OVal.s
  | "assets_val" => m.assets_val.map OVal.q
  | "assets_tag" => m.assets_tag.map OVal.s
  | "assets_cur_val" => m.assets_cur_val.map OVal.q
  | "assets_cur_tag" => m.assets_cur_tag.map OVal.s
  | "liab_cur_val" => m.liab_cur_val.map OVal.q
  | "liab_cur_tag" => m.liab_cur_tag.map OVal.s
  | "ar_val" => m.ar_val.map OVal.q
  | "ar_tag" => m.ar_tag.map OVal.s
  | "inv_val" => m.inv_val.map OVal.q
  | "inv_tag" => m.inv_tag.map OVal.s
  | "debt_val" => m.debt_val.map OVal.q
  | "debt_tag" => m.debt_tag.map OVal.s
  | "oi_val" => m.oi_val.map OVal.q
  | "oi_tag" => m.oi_tag.map OVal.s
  | "int_val" => m.int_val.map OVal.q
  | "int_tag" => m.int_tag.map OVal.s
  | "ocf_val" => m.ocf_val.map OVal.q
  | "ocf_tag" => m.ocf_tag.map OVal.s
  | "cash_to_liab" => m.cash_to_liab.map OVal.q
  | "current_ratio" => m.current_ratio.map OVal.q
  | "quick_ratio" => m.quick_ratio.map OVal.q
  | "debt_to_assets" => m.debt_to_assets.map OVal.q
  | "interest_coverage" => m.interest_coverage.map OVal.q
  | "ocf_to_debt" => m.ocf_to_debt.map OVal.q
  | _ => none

/-- The `keys` list of the merge helper, in source order. -/
def mergeKeys : List String :=
  ["cash_val", "cash_tag", "liab_val", "liab_tag", "assets_val", "assets_tag",
   "assets_cur_val", "assets_cur_tag", "liab_cur_val", "liab_cur_tag",
   "ar_val", "ar_tag", "inv_val", "inv_tag", "debt_val", "debt_tag",
   "oi_val", "oi_tag", "int_val", "int_tag", "ocf_val", "ocf_tag",
   "cash_to_liab", "current_ratio", "quick_ratio", "debt_to_assets",
   "interest_coverage", "ocf_to_debt"]

/-- One prefixed block of `merge`: the flattened report metadata followed
by the fixed `keys` list, each read with `metrics.get(k)` semantics
(`none` when the metrics dict is empty). -/
def mergeFields (pre : String) (metrics : Option CalcMetrics) :
    List (String × Option OVal) :=
  [(pre ++ "report_end", metrics.map (fun m => OVal.s m.report_end)),
   (pre ++ "age_days", metrics.map (fun m => OVal.z m.report_meta.age_days)),
   (pre ++ "report_form", metrics.bind (fun m => m.report_meta.form.map OVal.s)),
   (pre ++ "report_fp", metrics.bind (fun m => m.report_meta.fp.map OVal.s)),
   (pre ++ "report_filed", metrics.bind (fun m => m.report_meta.filed.map OVal.s)),
   (pre ++ "coverage", metrics.map (fun m => OVal.z m.report_meta.coverage))]
  ++ mergeKeys.map (fun k => (pre ++ k, metrics.bind (fun m => metricGet m k)))

/-- The metrics block for one form class: `if q_end: ... else {}`
(a string is truthy iff nonempty). -/
def metricsOf (facts : FactStore) : Option (String × AnchorMeta) → Option CalcMetrics
  | some (e, m) => if e = "" then none else some (calculate_metrics_for_report facts e m)
  | none => none

/-- `build_rx_snapshot`: quarterly pass, annual pass, then the merge of
both blocks behind the fixed header fields (an exception from either
anchor-selection pass propagates). -/
def build_rx_snapshot (facts : FactStore) (event_iso : String) (max_age_days : ℕ) :
    Except Unit (List (String × Option OVal)) :=
  match latest_report_end_within_window facts event_iso max_age_days QUARTERLY_FORMS with
  | .error e => .error e
  | .ok qres =>
    match latest_report_end_within_window facts event_iso max_age_days ANNUAL_FORMS with
    | .error e => .error e
    | .ok ares =>
      .ok ([("has_companyfacts", some (.z 1)), ("error", some (.s ""))]
        ++ mergeFields "q_" (metricsOf facts qres)
        ++ mergeFields "a_" (metricsOf facts ares))

/-! ## Order facts about the embedded Python comparisons -/

theorem Char.toNat_inj_rx {a b : Char} (h : a.toNat = b.toNat) : a = b := by
  apply Char.eq_of_val_eq
  apply UInt32.eq_of_toBitVec_eq
  have h2 : a.val.toNat = b.val.toNat := h
  exact BitVec.eq_of_toNat_eq (by simpa [UInt32.toNat] using h2)

theorem chLt_irrefl (a : Char) : chLt a a = false := by simp [chLt]

theorem chLt_trans {a b c : Char} (h1 : chLt a b = true) (h2 : chLt b c = true) :
    chLt a c = true := by
  simp only [chLt, decide_eq_true_eq] at *
  omega

theorem chLt_asymm_eq {a b : Char} (h1 : chLt a b = false) (h2 : chLt b a = false) :
    a = b := by
  simp only [chLt, decide_eq_false_iff_not, not_lt] at *
  exact Char.toNat_inj_rx (le_antisymm h2 h1)

theorem charsLt_irrefl : ∀ l, charsLt l l = false
  | [] => rfl
  | a :: as => by simp [charsLt, chLt_irrefl, charsLt_irrefl as]

theorem charsLt_trans : ∀ {x y z : List Char},
    charsLt x y = true → charsLt y z = true → charsLt x z = true
  | _, [], _, h1, _ => by simp [charsLt] at h1
  | [], _ :: _, [], _, h2 => by simp [charsLt] at h2
  | [], _ :: _, _ :: _, _, _ => by simp [charsLt]
  | _ :: _, _ :: _, [], _, h2 => by simp [charsLt] at h2
  | a :: as, b :: bs, c :: cs, h1, h2 => by
    simp only [charsLt, Bool.or_eq_true, Bool.and_eq_true, beq_iff_eq] at *
    rcases h1 with h1 | ⟨rfl, h1⟩
    · rcases h2 with h2 | ⟨rfl, h2⟩
      · exact Or.inl (chLt_trans h1 h2)
      · exact Or.inl h1
    · rcases h2 with h2 | ⟨rfl, h2⟩
      · exact Or.inl h2
      · exact Or.inr ⟨rfl, charsLt_trans h1 h2⟩

theorem charsLt_asymm_eq : ∀ {x y : List Char},
    charsLt x y = false → charsLt y x = false → x = y
  | [], [], _, _ => rfl
  | [], _ :: _, h1, _ => by simp [charsLt] at h1
  | _ :: _, [], _, h2 => by simp [charsLt] at h2
  | a :: as, b :: bs, h1, h2 => by
    simp only [charsLt, Bool.or_eq_false_iff, Bool.and_eq_false_iff] at h1 h2
    obtain ⟨hab, h1⟩ := h1
    obtain ⟨hba, h2⟩ := h2
    have heq : a = b := chLt_asymm_eq hab hba
    subst heq
    rcases h1 with h1 | h1
    · simp at h1
    rcases h2 with h2 | h2
    · simp at h2
    exact congrArg (a :: ·) (charsLt_asymm_eq h1 h2)

theorem pyStrLt_irrefl (s : String) : pyStrLt s s = false := charsLt_irrefl _

theorem pyStrLt_trans {x y z : String} (h1 : pyStrLt x y = true)
    (h2 : pyStrLt y z = true) : pyStrLt x z = true := charsLt_trans h1 h2

theorem charsLt_negtrans {x y z : List Char} (h1 : charsLt x y = false)
    (h2 : charsLt y z = false) : charsLt x z = false := by
  by_cases h : charsLt x z = true
  · exfalso
    by_cases hyx : charsLt y x = true
    · exact absurd (charsLt_trans hyx h) (by simp [h2])
    · have hxy : x = y := charsLt_asymm_eq h1 (by simpa using hyx)
      subst hxy
      simp [h2] at h
  · simpa using h

theorem pyStrLt_asymm_eq {x y : String} (h1 : pyStrLt x y = false)
    (h2 : pyStrLt y x = false) : x = y := by
  have h3 : x.data = y.data := charsLt_asymm_eq h1 h2
  cases x; cases y; exact congrArg String.mk h3

theorem pyStrLt_negtrans {x y z : String} (h1 : pyStrLt x y = false)
    (h2 : pyStrLt y z = false) : pyStrLt x z = false := charsLt_negtrans h1 h2

theorem scoreLtB_irrefl (a : ℕ × String) : scoreLtB a a = false := by
  simp [scoreLtB, pyStrLt_irrefl]

theorem scoreLtB_trans {a b c : ℕ × String} (h1 : scoreLtB a b = true)
    (h2 : scoreLtB b c = true) : scoreLtB a c = true := by
  simp only [scoreLtB, Bool.or_eq_true, Bool.and_eq_true, decide_eq_true_eq,
    beq_iff_eq] at *
  rcases h1 with h1 | ⟨e1, h1⟩ <;> rcases h2 with h2 | ⟨e2, h2⟩
  · exact Or.inl (by omega)
  · exact Or.inl (by omega)
  · exact Or.inl (by omega)
  · exact Or.inr ⟨by omega, pyStrLt_trans h1 h2⟩

theorem scoreLtB_negtrans {a b c : ℕ × String} (h1 : scoreLtB a b = false)
    (h2 : scoreLtB b c = false) : scoreLtB a c = false := by
  simp only [scoreLtB, Bool.or_eq_false_iff, Bool.and_eq_false_iff,
    decide_eq_false_iff_not, not_lt, beq_eq_false_iff_ne, ne_eq] at *
  obtain ⟨hn1, h1⟩ := h1
  obtain ⟨hn2, h2⟩ := h2
  refine ⟨by omega, ?_⟩
  by_cases hac : a.1 = c.1
  · have hab : a.1 = b.1 := by omega
    have hbc : b.1 = c.1 := by omega
    right
    have p1 : pyStrLt a.2 b.2 = false := by
      rcases h1 with h | h
      · exact absurd hab h
      · exact h
    have p2 : pyStrLt b.2 c.2 = false := by
      rcases h2 with h | h
      · exact absurd hbc h
      · exact h
    exact pyStrLt_negtrans p1 p2
  · exact Or.inl hac

/-- Specification of a left fold that replaces its accumulator exactly on
strictly greater elements: the result is drawn from the inputs and no
input is strictly greater than it. -/
theorem foldl_pick_spec {α : Type} (lt : α → α → Bool)
    (htr : ∀ a b c, lt a b = true → lt b c = true → lt a c = true)
    (hirr : ∀ a, lt a a = false)
    (hneg : ∀ a b c, lt a b = false → lt b c = false → lt a c = false) :
    ∀ (l : List α) (a : α),
      ((l.foldl (fun b x => if lt b x then x else b) a) = a ∨
        (l.foldl (fun b x => if lt b x then x else b) a) ∈ l) ∧
      lt (l.foldl (fun b x => if lt b x then x else b) a) a = false ∧
      ∀ x ∈ l, lt (l.foldl (fun b x => if lt b x then x else b) a) x = false
  | [], a => ⟨Or.inl rfl, hirr a, by simp⟩
  | x :: xs, a => by
    have step : (x :: xs).foldl (fun b y => if lt b y then y else b) a =
        xs.foldl (fun b y => if lt b y then y else b) (if lt a x then x else a) := rfl
    obtain ⟨hmem, hacc, hall⟩ :=
      foldl_pick_spec lt htr hirr hneg xs (if lt a x then x else a)
    set r := xs.foldl (fun b y => if lt b y then y else b) (if lt a x then x else a)
      with hr
    rw [step]
    by_cases hax : lt a x = true
    · simp only [hax, if_true] at hmem hacc
      refine ⟨?_, ?_, ?_⟩
      · rcases hmem with h | h
        · exact Or.inr (by simp [h])
        · exact Or.inr (by simp [h])
      · -- lt r a = false: otherwise lt r x via transitivity with lt a x
        by_cases h : lt r a = true
        · exact absurd (htr _ _ _ h hax) (by simp [hacc])
        · simpa using h
      · intro y hy
        rcases List.mem_cons.mp hy with rfl | hy
        · exact hacc
        · exact hall y hy
    · simp only [Bool.not_eq_true] at hax
      simp only [hax, if_false] at hmem hacc
      refine ⟨?_, hacc, ?_⟩
      · rcases hmem with h | h
        · exact Or.inl h
        · exact Or.inr (by simp [h])
      · intro y hy
        rcases List.mem_cons.mp hy with rfl | hy
        · exact hneg _ _ _ hacc hax
        · exact hall y hy

/-! ## The point resolver as a fold over its candidate list -/

/-- One comparison step of `point_for_end` at the `Point` level. -/
def pickPt (u : String) (ob : Option Point) (c : Point) : Option Point :=
  match ob with
  | none => some c
  | some b => if scoreLtB (scoreOf u b) (scoreOf u c) then some c else some b

theorem considerPt_eq (u e tag : String) (best : Option Point) (up : String × RawPt) :
    considerPt u e tag best up =
      match candOf e tag up with
      | none => best
      | some c => pickPt u best c := by
  rcases up with ⟨un, pt⟩
  unfold considerPt candOf pickPt
  cases h : as_iso10J pt.endv with
  | none => rfl
  | some e2 =>
    by_cases he : e2 = e
    · subst he
      simp only [if_pos rfl]
      cases hv : asNum pt.val with
      | none => rfl
      | some v => cases best <;> simp [Option.map]
    · simp [he]

theorem foldl_considerPt (u e tag : String) :
    ∀ (l : List (String × RawPt)) (best : Option Point),
      l.foldl (considerPt u e tag) best =
        (l.filterMap (candOf e tag)).foldl (pickPt u) best
  | [], _ => rfl
  | up :: rest, best => by
    rw [List.foldl_cons, considerPt_eq]
    cases h : candOf e tag up with
    | none => rw [List.filterMap_cons_none h]; exact foldl_considerPt u e tag rest best
    | some c =>
      rw [List.filterMap_cons_some h, List.foldl_cons]
      exact foldl_considerPt u e tag rest (pickPt u best c)

theorem point_for_end_eq_foldl (facts : FactStore) (chain : List String)
    (e u : String) :
    point_for_end facts chain e u = (candidatesFor facts chain e).foldl (pickPt u) none := by
  suffices h : ∀ (c : List String) (best : Option Point),
      c.foldl (fun b tag => (iter_tag_points facts tag).foldl (considerPt u e tag) b) best =
        (c.flatMap (fun tag => (iter_tag_points facts tag).filterMap (candOf e tag))).foldl
          (pickPt u) best by
    exact h chain none
  intro c
  induction c with
  | nil => intro best; rfl
  | cons t ts ih =>
    intro best
    rw [List.foldl_cons, List.flatMap_cons, List.foldl_append, foldl_considerPt]
    exact ih _

theorem foldl_pickPt_some (u : String) :
    ∀ (l : List Point) (b : Point),
      l.foldl (pickPt u) (some b) =
        some (l.foldl
          (fun x y => if scoreLtB (scoreOf u x) (scoreOf u y) then y else x) b)
  | [], _ => rfl
  | c :: l, b => by
    simp only [List.foldl_cons, pickPt]
    by_cases h : scoreLtB (scoreOf u b) (scoreOf u c) = true
    · simp only [h, if_true]
      exact foldl_pickPt_some u l c
    · simp only [Bool.not_eq_true] at h
      simp only [h, if_false]
      exact foldl_pickPt_some u l b

/-- The `Point`-level comparison inherits the order facts of the score key. -/
theorem ptLt_facts (u : String) :
    (∀ a b c : Point, scoreLtB (scoreOf u a) (scoreOf u b) = true →
        scoreLtB (scoreOf u b) (scoreOf u c) = true →
        scoreLtB (scoreOf u a) (scoreOf u c) = true) ∧
    (∀ a : Point, scoreLtB (scoreOf u a) (scoreOf u a) = false) ∧
    (∀ a b c : Point, scoreLtB (scoreOf u a) (scoreOf u b) = false →
        scoreLtB (scoreOf u b) (scoreOf u c) = false →
        scoreLtB (scoreOf u a) (scoreOf u c) = false) :=
  ⟨fun _ _ _ h1 h2 => scoreLtB_trans h1 h2,
   fun _ => scoreLtB_irrefl _,
   fun _ _ _ h1 h2 => scoreLtB_negtrans h1 h2⟩

theorem point_for_end_none_iff (facts : FactStore) (chain : List String)
    (e u : String) :
    point_for_end facts chain e u = none ↔ candidatesFor facts chain e = [] := by
  rw [point_for_end_eq_foldl]
  cases h : candidatesFor facts chain e with
  | nil => simp
  | cons x xs => simp [List.foldl_cons, pickPt, foldl_pickPt_some]

/-- Inversion of the per-point candidate constructor. -/
theorem candOf_eq_some {e tag : String} {up : String × RawPt} {q : Point} :
    candOf e tag up = some q ↔
      as_iso10J up.2.endv = some e ∧
      ∃ v, asNum up.2.val = some v ∧ q = mkPoint tag up.1 up.2 e v := by
  rcases up with ⟨un, pt⟩
  simp only [candOf]
  cases hend : as_iso10J pt.endv with
  | none => simp
  | some e2 =>
    by_cases he : e2 = e
    · subst he
      cases hv : asNum pt.val with
      | none => simp
      | some v =>
        simp only [Option.map_some']
        constructor
        · intro h2
          refine ⟨by simp, v, rfl, ?_⟩
          have h3 : some (mkPoint tag un pt e2 v) = some q := by simpa using h2
          exact (Option.some.inj h3).symm
        · rintro ⟨-, v2, hv2, rfl⟩
          have h3 : v2 = v := by simpa using hv2.symm
          subst h3
          simp
    · simp [if_neg he, he]

/-- Membership in the candidate list: exactly the points of the chain's
concepts whose normalized period-end equals the target and whose value
is numeric. -/
theorem mem_candidatesFor {facts : FactStore} {chain : List String}
    {e : String} {q : Point} :
    q ∈ candidatesFor facts chain e ↔
      ∃ tag ∈ chain, ∃ up ∈ iter_tag_points facts tag,
        as_iso10J up.2.endv = some e ∧
        ∃ v, asNum up.2.val = some v ∧ q = mkPoint tag up.1 up.2 e v := by
  unfold candidatesFor
  rw [List.mem_flatMap]
  constructor
  · rintro ⟨tag, htag, hq⟩
    rw [List.mem_filterMap] at hq
    obtain ⟨up, hup, hc⟩ := hq
    exact ⟨tag, htag, up, hup, candOf_eq_some.mp hc⟩
  · rintro ⟨tag, htag, up, hup, hc⟩
    exact ⟨tag, htag, List.mem_filterMap.mpr ⟨up, hup, candOf_eq_some.mpr hc⟩⟩

/-- When the resolver returns a point, that point is one of the candidates
and no candidate scores strictly higher. -/
theorem point_for_end_max {facts : FactStore} {chain : List String}
    {e u : String} {p : Point}
    (h : point_for_end facts chain e u = some p) :
    p ∈ candidatesFor facts chain e ∧
      ∀ q ∈ candidatesFor facts chain e,
        scoreLtB (scoreOf u p) (scoreOf u q) = false := by
  rw [point_for_end_eq_foldl] at h
  obtain ⟨htr, hirr, hneg⟩ := ptLt_facts u
  cases hc : candidatesFor facts chain e with
  | nil => rw [hc] at h; exact absurd h (by simp)
  | cons x xs =>
    rw [hc, List.foldl_cons] at h
    simp only [pickPt] at h
    rw [foldl_pickPt_some] at h
    obtain ⟨hmem, hacc, hall⟩ :=
      foldl_pick_spec (fun a b => scoreLtB (scoreOf u a) (scoreOf u b))
        htr hirr hneg xs x
    set r := xs.foldl
      (fun a b => if scoreLtB (scoreOf u a) (scoreOf u b) then b else a) x with hr
    have hp : p = r := by
      apply Option.some.inj
      rw [← h]
    subst hp
    refine ⟨?_, ?_⟩
    · rcases hmem with h2 | h2
      · simp [h2]
      · simp [h2]
    · intro q hq
      rcases List.mem_cons.mp hq with rfl | hq
      · exact hacc
      · exact hall q hq

/-! ## Claim C1: tag-chain precedence in the point resolver -/

/-- Store in which both cash-chain concepts carry a USD point at the same
period-end — the scenario of the tag-chain precedence claim. -/
def c1Store : FactStore :=
  { tags :=
    [("CashAndCashEquivalentsAtCarryingValue",
      [("USD", [{ endv := some (.str "2020-12-31"), val := some (.num 100),
                  form := some "10-K" }])]),
     ("CashCashEquivalentsRestrictedCashAndRestrictedCashEquivalents",
      [("USD", [{ endv := some (.str "2020-12-31"), val := some (.num 200),
                  form := some "10-K" }])])] }

/-- C1 counterexample: both chain concepts have a USD point at the target
end, yet `point_for_end` returns the SECOND concept's point — the score's
tie-break is the lexicographically greater tag string, not the earlier
chain position, so the claim's required outcome (first concept) is false. -/
theorem c1_counterexample :
    (candidatesFor c1Store TAG_CASH "2020-12-31").map Point.tag =
      ["CashAndCashEquivalentsAtCarryingValue",
       "CashCashEquivalentsRestrictedCashAndRestrictedCashEquivalents"] ∧
    (candidatesFor c1Store TAG_CASH "2020-12-31").map Point.unit = ["USD", "USD"] ∧
    (point_for_end c1Store TAG_CASH "2020-12-31").map Point.tag =
      some "CashCashEquivalentsRestrictedCashAndRestrictedCashEquivalents" ∧
    (point_for_end c1Store TAG_CASH "2020-12-31").map Point.tag ≠
      some "CashAndCashEquivalentsAtCarryingValue" := by
  refine ⟨?_, ?_, ?_, ?_⟩ <;> decide

/-- C1 (amended): for every fact store, chain, target end and preferred
unit, the resolver considers exactly the points of the chain's concepts
whose normalized period-end equals the target and whose value is numeric,
and returns a candidate that no other candidate strictly beats under the
ranking key (unit equals preferred unit, then GREATER tag string in
Python's lexicographic string order — chain position does not break unit
ties); in the `TAG_CASH` scenario the second concept's point is returned. -/
theorem c1_amended (facts : FactStore) (chain : List String) (end_iso u : String) :
    (point_for_end facts chain end_iso u = none ↔
      candidatesFor facts chain end_iso = []) ∧
    (∀ q : Point, q ∈ candidatesFor facts chain end_iso ↔
      ∃ tag ∈ chain, ∃ up ∈ iter_tag_points facts tag,
        as_iso10J up.2.endv = some end_iso ∧
        ∃ v, asNum up.2.val = some v ∧ q = mkPoint tag up.1 up.2 end_iso v) ∧
    (∀ p : Point, point_for_end facts chain end_iso u = some p →
      p ∈ candidatesFor facts chain end_iso ∧
      ∀ q ∈ candidatesFor facts chain end_iso,
        scoreLtB (scoreOf u p) (scoreOf u q) = false) ∧
    (point_for_end c1Store TAG_CASH "2020-12-31").map Point.tag =
      some "CashCashEquivalentsRestrictedCashAndRestrictedCashEquivalents" :=
  ⟨point_for_end_none_iff facts chain end_iso u,
   fun _ => mem_candidatesFor,
   fun _ h => point_for_end_max h,
   by decide⟩

/-- The point the resolver picks in the C1 scenario. -/
def c1Winner : Point :=
  { tag := "CashCashEquivalentsRestrictedCashAndRestrictedCashEquivalents",
    unit := "USD", val := 200, endd := "2020-12-31",
    filed := none, fp := none, form := some "10-K", accn := none }

theorem c1_amended_witness :
    c1Winner ∈ candidatesFor c1Store TAG_CASH "2020-12-31" ∧
      ∀ q ∈ candidatesFor c1Store TAG_CASH "2020-12-31",
        scoreLtB (scoreOf "USD" c1Winner) (scoreOf "USD" q) = false :=
  (c1_amended c1Store TAG_CASH "2020-12-31" "USD").2.2.1 c1Winner (by decide)

/-! ## Claim C8: safe division -/

/-- C8: `safe_div a b` is absent iff `a` is absent, `b` is absent or
`b = 0`; otherwise it equals `a / b` exactly.  (The Lean model is a total
function, mirroring that the Python function raises no exception.) -/
theorem c8_safe_div (a b : Option ℚ) :
    (safe_div a b = none ↔ a = none ∨ b = none ∨ b = some 0) ∧
    (∀ x y, a = some x → b = some y → y ≠ 0 → safe_div a b = some (x / y)) := by
  constructor
  · cases a with
    | none => simp [safe_div]
    | some x =>
      cases b with
      | none => simp [safe_div]
      | some y =>
        by_cases h : y = 0 <;> simp [safe_div, h]
  · rintro x y rfl rfl hy
    simp [safe_div, hy]

theorem c8_safe_div_witness : safe_div (some 6) (some 3) = some 2 := by
  have h := (c8_safe_div (some 6) (some 3)).2 6 3 rfl rfl (by norm_num)
  rw [h]
  norm_num

/-! ## Claim C5: quick-ratio fallback -/

/-- C5: the quick ratio prefers (cash + receivables) / current
liabilities; falls back to (current assets − inventory) / current
liabilities when either primary operand is absent and both fallback
operands are present; is absent otherwise; and is absent whenever current
liabilities is absent or zero, regardless of numerator availability.  The
final conjunct checks the claim's concrete instance and the first conjunct
ties the helper to the engine's metrics record. -/
theorem c5_quick_ratio (lc c ar ca inv : Option ℚ) :
    (∀ f e m, (calculate_metrics_for_report f e m).quick_ratio =
      quick_ratio_of ((point_for_end f TAG_LIAB_CUR e).map Point.val)
        ((point_for_end f TAG_CASH e).map Point.val)
        ((point_for_end f TAG_AR e).map Point.val)
        ((point_for_end f TAG_ASSETS_CUR e).map Point.val)
        ((point_for_end f TAG_INV e).map Point.val)) ∧
    (lc = none ∨ lc = some 0 → quick_ratio_of lc c ar ca inv = none) ∧
    (∀ l, lc = some l → l ≠ 0 →
      (∀ cv av, c = some cv → ar = some av →
        quick_ratio_of lc c ar ca inv = some ((cv + av) / l)) ∧
      ((c = none ∨ ar = none) → ∀ cav iv, ca = some cav → inv = some iv →
        quick_ratio_of lc c ar ca inv = some ((cav - iv) / l)) ∧
      ((c = none ∨ ar = none) → (ca = none ∨ inv = none) →
        quick_ratio_of lc c ar ca inv = none)) ∧
    quick_ratio_of (some 300) (some 100) none (some 500) (some 200) = some 1 := by
  refine ⟨fun _ _ _ => rfl, ?_, ?_, by norm_num [quick_ratio_of, truthyQ, safe_div]⟩
  · rintro (rfl | rfl) <;> simp [quick_ratio_of, truthyQ]
  · rintro l rfl hl
    have ht : truthyQ (some l) = true := by simp [truthyQ, hl]
    refine ⟨?_, ?_, ?_⟩
    · rintro cv av rfl rfl
      simp [quick_ratio_of, ht, safe_div, hl]
    · rintro hna cav iv rfl rfl
      rcases hna with rfl | rfl
      · cases ar <;> simp [quick_ratio_of, ht, safe_div, hl]
      · cases c <;> simp [quick_ratio_of, ht, safe_div, hl]
    · intro hna hnb
      rcases hna with rfl | rfl <;> rcases hnb with rfl | rfl
      · cases ar <;> cases inv <;> simp [quick_ratio_of, ht]
      · cases ar <;> cases ca <;> simp [quick_ratio_of, ht]
      · cases c <;> cases inv <;> simp [quick_ratio_of, ht]
      · cases c <;> cases ca <;> simp [quick_ratio_of, ht]

theorem c5_quick_ratio_witness :
    quick_ratio_of (some 300) (some 100) none (some 500) (some 200) =
      some ((500 - 200) / 300) :=
  ((c5_quick_ratio (some 300) (some 100) none (some 500) (some 200)).2.2.1
    300 rfl (by norm_num)).2.1 (Or.inr rfl) 500 200 rfl rfl

/-! ## Claim C6: total liabilities (partial sums rejected) -/

/-- C6: `total_liabilities_at_end` returns the direct point's value when
one resolves; otherwise the sum of the current and noncurrent components,
labelled with the synthetic sum tag, only when BOTH resolve; with the
direct tag absent and either component absent the result is absent. -/
theorem c6_total_liabilities (facts : FactStore) (e : String) :
    (∀ p, point_for_end facts TAG_LIAB_TOTAL e = some p →
      total_liabilities_at_end facts e =
        (some p.val, some p.tag, some (metaOfPoint p))) ∧
    (point_for_end facts TAG_LIAB_TOTAL e = none →
      (∀ lc lnc, point_for_end facts TAG_LIAB_CUR e = some lc →
          point_for_end facts TAG_LIAB_NONCUR e = some lnc →
          (total_liabilities_at_end facts e).1 = some (lc.val + lnc.val) ∧
          (total_liabilities_at_end facts e).2.1 =
            some "LiabilitiesCurrent+LiabilitiesNoncurrent") ∧
      ((point_for_end facts TAG_LIAB_CUR e = none ∨
        point_for_end facts TAG_LIAB_NONCUR e = none) →
        total_liabilities_at_end facts e = (none, none, none))) := by
  constructor
  · intro p hp
    simp [total_liabilities_at_end, hp]
  · intro h0
    constructor
    · intro lc lnc h1 h2
      simp [total_liabilities_at_end, h0, h1, h2]
    · rintro (h1 | h1)
      · cases h2 : point_for_end facts TAG_LIAB_NONCUR e <;>
          simp [total_liabilities_at_end, h0, h1, h2]
      · cases h2 : point_for_end facts TAG_LIAB_CUR e <;>
          simp [total_liabilities_at_end, h0, h1, h2]

/-- Store with only a current-liabilities point: the partial-sum scenario. -/
def c6Store : FactStore :=
  { tags := [("LiabilitiesCurrent",
      [("USD", [{ endv := some (.str "2020-12-31"), val := some (.num 70),
                  form := some "10-K" }])])] }

theorem c6_total_liabilities_witness :
    total_liabilities_at_end c6Store "2020-12-31" = (none, none, none) :=
  ((c6_total_liabilities c6Store "2020-12-31").2 (by decide)).2 (Or.inr (by decide))

/-! ## Claim C7: total debt (partial sums accepted) -/

/-- C7: `total_debt_at_end` sums whichever of current and long-term debt
resolve: both → their sum, exactly one → that component's value alone,
neither → absent. -/
theorem c7_total_debt (facts : FactStore) (e : String) :
    (∀ dc dl, point_for_end facts TAG_DEBT_CUR e = some dc →
        point_for_end facts TAG_DEBT_LT e = some dl →
        (total_debt_at_end facts e).1 = some (dc.val + dl.val) ∧
        (total_debt_at_end facts e).2.1 = some (dc.tag ++ "+" ++ dl.tag)) ∧
    (∀ dc, point_for_end facts TAG_DEBT_CUR e = some dc →
        point_for_end facts TAG_DEBT_LT e = none →
        (total_debt_at_end facts e).1 = some dc.val ∧
        (total_debt_at_end facts e).2.1 = some dc.tag) ∧
    (∀ dl, point_for_end facts TAG_DEBT_CUR e = none →
        point_for_end facts TAG_DEBT_LT e = some dl →
        (total_debt_at_end facts e).1 = some dl.val ∧
        (total_debt_at_end facts e).2.1 = some dl.tag) ∧
    (point_for_end facts TAG_DEBT_CUR e = none →
      point_for_end facts TAG_DEBT_LT e = none →
      total_debt_at_end facts e = (none, none, none)) := by
  refine ⟨?_, ?_, ?_, ?_⟩
  · intro dc dl h1 h2
    simp [total_debt_at_end, h1, h2]
  · intro dc h1 h2
    simp [total_debt_at_end, h1, h2]
  · intro dl h1 h2
    simp [total_debt_at_end, h1, h2]
  · intro h1 h2
    simp [total_debt_at_end, h1, h2]

/-- Store with only a current-debt point of 50. -/
def c7Store : FactStore :=
  { tags := [("DebtCurrent",
      [("USD", [{ endv := some (.str "2020-12-31"), val := some (.num 50),
                  form := some "10-K" }])])] }

/-- The resolved current-debt point of `c7Store`. -/
def c7Point : Point :=
  { tag := "DebtCurrent", unit := "USD", val := 50, endd := "2020-12-31",
    filed := none, fp := none, form := some "10-K", accn := none }

theorem c7_total_debt_witness :
    (total_debt_at_end c7Store "2020-12-31").1 = some c7Point.val ∧
      (total_debt_at_end c7Store "2020-12-31").2.1 = some c7Point.tag :=
  (c7_total_debt c7Store "2020-12-31").2.1 c7Point (by decide) (by decide)

/-! ## Claim C2: malformed fact points -/

/-- The store with every non-numeric-valued point removed. -/
def scrubVals (facts : FactStore) : FactStore :=
  ⟨facts.tags.map (fun t =>
    (t.1, t.2.map (fun u => (u.1, u.2.filter (fun pt => (asNum pt.val).isSome)))))⟩

theorem lookup_map {α β : Type} (g : α → β) (k : String) :
    ∀ l : List (String × α),
      (l.map (fun kv => (kv.1, g kv.2))).lookup k = (l.lookup k).map g
  | [] => rfl
  | (a, b) :: es => by
    simp only [List.map_cons, List.lookup]
    cases h : k == a with
    | true => rfl
    | false => exact lookup_map g k es

theorem map_pair_filter {α : Type} (u1 : String) (q : α → Bool) :
    ∀ l : List α, (l.filter q).map (fun pt => (u1, pt)) =
      (l.map (fun pt => (u1, pt))).filter (fun up => q up.2)
  | [] => rfl
  | x :: xs => by
    cases h : q x <;>
      simp [List.filter_cons, h, map_pair_filter u1 q xs]

theorem filterMap_filter_of_none {α β : Type} {p : α → Bool} {g : α → Option β}
    (h : ∀ x, p x = false → g x = none) :
    ∀ l : List α, (l.filter p).filterMap g = l.filterMap g
  | [] => rfl
  | x :: xs => by
    cases hp : p x with
    | true =>
      rw [List.filter_cons_of_pos hp, List.filterMap_cons, List.filterMap_cons]
      cases g x <;> simp [filterMap_filter_of_none h xs]
    | false =>
      rw [List.filter_cons_of_neg (by simp [hp]), List.filterMap_cons, h x hp]
      exact filterMap_filter_of_none h xs

theorem candOf_none_of_nonnum {e tag : String} {up : String × RawPt}
    (h : (asNum up.2.val).isSome = false) : candOf e tag up = none := by
  rcases up with ⟨un, pt⟩
  have hv : asNum pt.val = none := by
    cases hv2 : asNum pt.val with
    | none => rfl
    | some v => rw [hv2] at h; simp at h
  cases hend : as_iso10J pt.endv <;> simp [candOf, hend, hv]

theorem iter_scrub (f : FactStore) (tag : String) :
    iter_tag_points (scrubVals f) tag =
      (iter_tag_points f tag).filter (fun up => (asNum up.2.val).isSome) := by
  unfold iter_tag_points scrubVals
  rw [lookup_map]
  cases h : f.tags.lookup tag with
  | none => rfl
  | some units =>
    simp only [Option.map_some']
    rw [List.flatMap_map, List.filter_flatMap]
    have h2 : (fun a : String × List RawPt =>
        ((a.1, a.2.filter (fun pt => (asNum pt.val).isSome)).2.map
          (fun pt => ((a.1, a.2.filter (fun pt => (asNum pt.val).isSome)).1, pt)))) =
      (fun a : String × List RawPt =>
        (a.2.map (fun pt => (a.1, pt))).filter
          (fun up => (asNum up.2.val).isSome)) := by
      funext a
      exact map_pair_filter a.1 _ a.2
    rw [h2]

theorem candidatesFor_scrub (f : FactStore) (chain : List String) (e : String) :
    candidatesFor (scrubVals f) chain e = candidatesFor f chain e := by
  unfold candidatesFor
  have h : (fun tag => (iter_tag_points (scrubVals f) tag).filterMap (candOf e tag)) =
      (fun tag => (iter_tag_points f tag).filterMap (candOf e tag)) := by
    funext tag
    rw [iter_scrub]
    exact filterMap_filter_of_none
      (fun up hup => candOf_none_of_nonnum hup) _
  rw [h]

/-- The per-point condition under which candidate generation cannot
raise: whenever the period-end normalizes to a ≥10-character string and
the point passes the form filter, that string parses as a date. -/
def pointParseOkB (allowed : List String) (up : String × RawPt) : Bool :=
  match as_iso10J up.2.endv with
  | none => true
  | some e =>
    if pyUpper (orEmpty up.2.form) ≠ "" ∧ pyUpper (orEmpty up.2.form) ∉ allowed
    then true
    else (strptimeYMD e).isSome

/-- All anchor-scan points of the store satisfy `pointParseOkB`. -/
def ParseOkB (facts : FactStore) (allowed : List String) : Bool :=
  (anchorPoints facts).all (pointParseOkB allowed)

theorem candStep_raise_inv {evd : Date} {max_age : ℕ} {allowed : List String}
    {up : String × RawPt}
    (hstep : candStep evd max_age allowed up = .raise) :
    pointParseOkB allowed up = false := by
  unfold candStep at hstep
  unfold pointParseOkB
  split at hstep
  · exact absurd hstep (by simp)
  · rename_i e heq
    split at hstep
    · exact absurd hstep (by simp)
    · rename_i hf
      rw [if_neg hf]
      split at hstep
      · rename_i hp
        rw [hp]
        rfl
      · split at hstep
        · exact absurd hstep (by simp)
        · split at hstep
          · exact absurd hstep (by simp)
          · exact absurd hstep (by simp)

theorem candGenGo_ok (evd : Date) (max_age : ℕ) (allowed : List String) :
    ∀ pts : List (String × RawPt), pts.all (pointParseOkB allowed) = true →
      ∀ acc, ∃ l, candGenGo evd max_age allowed pts acc = .ok l := by
  intro pts
  induction pts with
  | nil => exact fun _ acc => ⟨acc, rfl⟩
  | cons up rest ih =>
    intro h acc
    rw [List.all_cons, Bool.and_eq_true] at h
    obtain ⟨h1, h2⟩ := h
    cases hstep : candStep evd max_age allowed up with
    | raise => rw [candStep_raise_inv hstep] at h1; exact absurd h1 (by simp)
    | skip =>
      simp only [candGenGo, hstep]
      exact ih h2 acc
    | add e r =>
      simp only [candGenGo, hstep]
      exact ih h2 _

theorem latest_ok (facts : FactStore) (event_iso : String) (max_age : ℕ)
    (allowed : List String) (evd : Date)
    (hev : iso_to_date event_iso = .ok evd)
    (hok : ParseOkB facts allowed = true) :
    ∃ r, latest_report_end_within_window facts event_iso max_age allowed = .ok r := by
  obtain ⟨l, hl⟩ := candGenGo_ok evd max_age allowed (anchorPoints facts) hok []
  cases hpick : pickBestEnd (coverage facts) (l.map Prod.fst) with
  | none =>
    exact ⟨none, by simp only [latest_report_end_within_window, hev, hl, hpick]⟩
  | some best =>
    cases hlook : l.lookup best with
    | none =>
      exact ⟨none, by
        simp only [latest_report_end_within_window, hev, hl, hpick, hlook]⟩
    | some r =>
      exact ⟨some (best,
        { form := r.form, fp := r.fp, filed := r.filed,
          age_days := r.age_days, coverage := coverage facts best }), by
        simp only [latest_report_end_within_window, hev, hl, hpick, hlook]⟩

theorem build_ok (facts : FactStore) (event_iso : String) (max_age : ℕ)
    (evd : Date) (hev : iso_to_date event_iso = .ok evd)
    (hq : ParseOkB facts QUARTERLY_FORMS = true)
    (ha : ParseOkB facts ANNUAL_FORMS = true) :
    ∃ out, build_rx_snapshot facts event_iso max_age = .ok out := by
  obtain ⟨rq, hrq⟩ := latest_ok facts event_iso max_age QUARTERLY_FORMS evd hev hq
  obtain ⟨ra, hra⟩ := latest_ok facts event_iso max_age ANNUAL_FORMS evd hev ha
  exact ⟨[("has_companyfacts", some (.z 1)), ("error", some (.s ""))]
      ++ mergeFields "q_" (metricsOf facts rq) ++ mergeFields "a_" (metricsOf facts ra),
    by simp only [build_rx_snapshot, hrq, hra]⟩

/-- Store with one anchor-concept point whose 10-character period-end is
not a parseable date. -/
def c2BadStore : FactStore :=
  { tags := [("Assets",
      [("USD", [{ endv := some (.str "XXXX-XX-XX"), val := some (.num 1) }])])] }

/-- Store whose only point has a parseable end but a NON-NUMERIC value. -/
def c2NnStore : FactStore :=
  { tags := [("Assets",
      [("USD", [{ endv := some (.str "2020-12-31"), val := some (.str "oops"),
                  form := some "10-Q" }])])] }

/-- C2 counterexample: a fact point whose period-end is a ≥10-character
unparseable string makes both `latest_report_end_within_window` and
`build_rx_snapshot` raise (`.error ()` models the escaping `ValueError`),
contradicting the claim that they return normally on malformed points. -/
theorem c2_counterexample :
    latest_report_end_within_window c2BadStore "2021-02-01" 160 QUARTERLY_FORMS
      = .error () ∧
    build_rx_snapshot c2BadStore "2021-02-01" 160 = .error () := by
  exact ⟨rfl, rfl⟩

/-- C2 (amended): points with non-numeric values never influence value
resolution (removing them leaves `point_for_end` unchanged), and the
engine returns normally whenever every form-passing ≥10-character
period-end parses; but an unparseable ≥10-character period-end raises out
of `latest_report_end_within_window` and `build_rx_snapshot`, and a
form-passing point with a parseable end and a non-numeric value still
contributes a candidate anchor end (witnessed by the final conjunct, an
anchor of coverage 0 sourced from a value-less point). -/
theorem c2_amended :
    (∀ facts chain e u,
      point_for_end (scrubVals facts) chain e u = point_for_end facts chain e u) ∧
    (∀ facts event_iso max_age allowed evd, iso_to_date event_iso = .ok evd →
      ParseOkB facts allowed = true →
      ∃ r, latest_report_end_within_window facts event_iso max_age allowed = .ok r) ∧
    (∀ facts event_iso max_age evd, iso_to_date event_iso = .ok evd →
      ParseOkB facts QUARTERLY_FORMS = true → ParseOkB facts ANNUAL_FORMS = true →
      ∃ out, build_rx_snapshot facts event_iso max_age = .ok out) ∧
    latest_report_end_within_window c2NnStore "2021-02-01" 160 QUARTERLY_FORMS =
      .ok (some ("2020-12-31",
        { form := some "10-Q", fp := none, filed := none,
          age_days := 32, coverage := 0 })) := by
  refine ⟨?_, ?_, ?_, by rfl⟩
  · intro facts chain e u
    rw [point_for_end_eq_foldl, point_for_end_eq_foldl, candidatesFor_scrub]
  · intro facts event_iso max_age allowed evd hev hok
    exact latest_ok facts event_iso max_age allowed evd hev hok
  · intro facts event_iso max_age evd hev hq ha
    exact build_ok facts event_iso max_age evd hev hq ha

theorem c2_amended_witness :
    iso_to_date "2021-02-01" = .ok ⟨2021, 2, 1⟩ ∧
      ParseOkB c2NnStore QUARTERLY_FORMS = true ∧
      ∃ r, latest_report_end_within_window c2NnStore "2021-02-01" 160
        QUARTERLY_FORMS = .ok r :=
  ⟨by rfl, by decide,
    c2_amended.2.1 c2NnStore "2021-02-01" 160 QUARTERLY_FORMS ⟨2021, 2, 1⟩
      (by rfl) (by decide)⟩

/-! ## Candidate-end characterization (claims C3 and C4) -/

theorem lookup_isSome_iff_mem_keys {β : Type} (k : String) :
    ∀ l : List (String × β), (l.lookup k).isSome = true ↔ k ∈ l.map Prod.fst
  | [] => by simp [List.lookup]
  | (a, b) :: es => by
    simp only [List.lookup, List.map_cons, List.mem_cons]
    cases h : k == a with
    | true =>
      simp only [Option.isSome_some, true_iff]
      exact Or.inl (by simpa using h)
    | false =>
      rw [lookup_isSome_iff_mem_keys k es]
      constructor
      · exact Or.inr
      · rintro (rfl | h2)
        · simp at h
        · exact h2

theorem mem_keys_setdefault {l : List (String × EndRec)} {k : String}
    {v : EndRec} {k2 : String} :
    k2 ∈ (setdefault l k v).map Prod.fst ↔ k2 ∈ l.map Prod.fst ∨ k2 = k := by
  unfold setdefault
  by_cases h : (l.lookup k).isSome = true
  · rw [if_pos h]
    constructor
    · exact Or.inl
    · rintro (h2 | rfl)
      · exact h2
      · exact (lookup_isSome_iff_mem_keys k2 l).mp h
  · rw [if_neg h]
    simp [List.map_append]

/-- Inversion of a successful candidate-generation step: exactly the
claim's conditions (normalized end equals the string, the form when
present is allowed after upper-casing, the parsed end is on or before the
event date, and the age is between 0 and the window inclusive). -/
theorem candStep_add_iff {evd : Date} {max_age : ℕ} {allowed : List String}
    {up : String × RawPt} {e : String} {r : EndRec} :
    candStep evd max_age allowed up = .add e r ↔
      as_iso10J up.2.endv = some e ∧
      (pyUpper (orEmpty up.2.form) = "" ∨ pyUpper (orEmpty up.2.form) ∈ allowed) ∧
      ∃ d, strptimeYMD e = some d ∧ dateLtB evd d = false ∧
        0 ≤ dateDiffDays evd d ∧ dateDiffDays evd d ≤ (max_age : ℤ) ∧
        r = { form := orNone up.2.form, fp := orNone up.2.fp,
              filed := as_iso10S up.2.filed,
              age_days := dateDiffDays evd d } := by
  cases hend : as_iso10J up.2.endv with
  | none => simp [candStep, hend]
  | some e2 =>
    by_cases hf : pyUpper (orEmpty up.2.form) ≠ "" ∧
        pyUpper (orEmpty up.2.form) ∉ allowed
    · simp only [candStep, hend, if_pos hf]
      constructor
      · intro h2
        exact absurd h2 (by simp)
      · rintro ⟨-, hok, -⟩
        rcases hf with ⟨hne, hni⟩
        rcases hok with h2 | h2
        · exact absurd h2 hne
        · exact absurd h2 hni
    · have hok : pyUpper (orEmpty up.2.form) = "" ∨
          pyUpper (orEmpty up.2.form) ∈ allowed := by
        by_cases h1 : pyUpper (orEmpty up.2.form) = ""
        · exact Or.inl h1
        · by_cases h2 : pyUpper (orEmpty up.2.form) ∈ allowed
          · exact Or.inr h2
          · exact absurd ⟨h1, h2⟩ hf
      cases hp : strptimeYMD e2 with
      | none =>
        simp only [candStep, hend, if_neg hf, hp]
        constructor
        · intro h2
          exact absurd h2 (by simp)
        · rintro ⟨he, -, d, hd, -⟩
          have he2 : e2 = e := Option.some.inj he
          subst he2
          rw [hp] at hd
          exact absurd hd (by simp)
      | some d0 =>
        by_cases hlt : dateLtB evd d0 = true
        · simp only [candStep, hend, if_neg hf, hp, if_pos hlt]
          constructor
          · intro h2
            exact absurd h2 (by simp)
          · rintro ⟨he, -, d, hd, hdlt, -⟩
            have he2 : e2 = e := Option.some.inj he
            subst he2
            rw [hp] at hd
            have hd2 : d0 = d := Option.some.inj hd
            subst hd2
            rw [hlt] at hdlt
            exact absurd hdlt (by simp)
        · by_cases hage : dateDiffDays evd d0 < 0 ∨
              (max_age : ℤ) < dateDiffDays evd d0
          · simp only [candStep, hend, if_neg hf, hp, if_neg hlt, if_pos hage]
            constructor
            · intro h2
              exact absurd h2 (by simp)
            · rintro ⟨he, -, d, hd, -, h0, hmax, -⟩
              have he2 : e2 = e := Option.some.inj he
              subst he2
              rw [hp] at hd
              have hd2 : d0 = d := Option.some.inj hd
              subst hd2
              omega
          · simp only [candStep, hend, if_neg hf, hp, if_neg hlt, if_neg hage]
            constructor
            · intro h2
              injection h2 with h3 h4
              subst h3
              refine ⟨rfl, hok, d0, hp, by simpa using hlt, by omega, by omega,
                h4.symm⟩
            · rintro ⟨he, -, d, hd, -, -, -, hr⟩
              have he2 : e2 = e := Option.some.inj he
              subst he2
              rw [hp] at hd
              have hd2 : d0 = d := Option.some.inj hd
              subst hd2
              rw [hr]

theorem candGenGo_keys (evd : Date) (max_age : ℕ) (allowed : List String) :
    ∀ (pts : List (String × RawPt)) (acc l : List (String × EndRec)),
      candGenGo evd max_age allowed pts acc = .ok l →
      ∀ e, e ∈ l.map Prod.fst ↔
        e ∈ acc.map Prod.fst ∨
        ∃ up ∈ pts, ∃ r, candStep evd max_age allowed up = .add e r := by
  intro pts
  induction pts with
  | nil =>
    intro acc l h e
    have h2 : acc = l := by
      injection h
    subst h2
    simp
  | cons up rest ih =>
    intro acc l h e
    rw [List.exists_mem_cons_iff]
    cases hstep : candStep evd max_age allowed up with
    | raise =>
      rw [candGenGo, hstep] at h
      exact absurd h (by simp)
    | skip =>
      rw [candGenGo, hstep] at h
      rw [ih acc l h e]
      constructor
      · rintro (h2 | h2)
        · exact Or.inl h2
        · exact Or.inr (Or.inr h2)
      · rintro (h2 | ⟨r, h2⟩ | h2)
        · exact Or.inl h2
        · exact absurd h2 (by simp)
        · exact Or.inr h2
    | add e2 r2 =>
      rw [candGenGo, hstep] at h
      rw [ih _ l h e, mem_keys_setdefault]
      constructor
      · rintro ((h2 | rfl) | h2)
        · exact Or.inl h2
        · exact Or.inr (Or.inl ⟨r2, rfl⟩)
        · exact Or.inr (Or.inr h2)
      · rintro (h2 | ⟨r, h2⟩ | h2)
        · exact Or.inl (Or.inl h2)
        · injection h2 with h3 h4
          exact Or.inl (Or.inr h3.symm)
        · exact Or.inr h2

/-- C4: a period-end becomes a candidate in the anchor selector's
candidate generation iff some anchor-concept point normalizes to that end,
its form (when present) is in `allowed_forms` after upper-casing, its
parsed end is on or before the event date, and its age in days lies
between 0 and `max_age_days` inclusive. -/
theorem c4_candidate_generation (facts : FactStore) (evd : Date)
    (max_age : ℕ) (allowed : List String) (l : List (String × EndRec))
    (hgen : candGenGo evd max_age allowed (anchorPoints facts) [] = .ok l) :
    ∀ e, e ∈ l.map Prod.fst ↔
      ∃ up ∈ anchorPoints facts,
        as_iso10J up.2.endv = some e ∧
        (pyUpper (orEmpty up.2.form) = "" ∨
          pyUpper (orEmpty up.2.form) ∈ allowed) ∧
        ∃ d, strptimeYMD e = some d ∧ dateLtB evd d = false ∧
          0 ≤ dateDiffDays evd d ∧ dateDiffDays evd d ≤ (max_age : ℤ) := by
  intro e
  rw [candGenGo_keys evd max_age allowed (anchorPoints facts) [] l hgen e]
  simp only [List.map_nil, List.not_mem_nil, false_or]
  constructor
  · rintro ⟨up, hup, r, hr⟩
    obtain ⟨h1, h2, d, h3, h4, h5, h6, -⟩ := candStep_add_iff.mp hr
    exact ⟨up, hup, h1, h2, d, h3, h4, h5, h6⟩
  · rintro ⟨up, hup, h1, h2, d, h3, h4, h5, h6⟩
    exact ⟨up, hup, _, candStep_add_iff.mpr ⟨h1, h2, d, h3, h4, h5, h6, rfl⟩⟩

/-! ## Parsed 10-character date strings and Python string order -/

theorem digit_bounds {c : Char} (h : c.isDigit = true) :
    48 ≤ c.toNat ∧ c.toNat ≤ 57 := by
  simp [Char.isDigit] at h
  exact h

theorem char_eq_iff {x y : Char} : x = y ↔ x.toNat = y.toNat :=
  ⟨fun h => h ▸ rfl, Char.toNat_inj_rx⟩

theorem dig?_eq_some {c : Char} {n : ℕ} :
    dig? c = some n ↔ c.isDigit = true ∧ n = c.toNat - 48 := by
  by_cases h : c.isDigit = true <;> simp [dig?, h, eq_comm]

theorem num4_eq_some' {a b c d : Char} {v : ℕ} :
    num4 a b c d = some v ↔
      ∃ x y z w, dig? a = some x ∧ dig? b = some y ∧ dig? c = some z ∧
        dig? d = some w ∧ v = 1000 * x + 100 * y + 10 * z + w := by
  cases h1 : dig? a <;> cases h2 : dig? b <;> cases h3 : dig? c <;>
    cases h4 : dig? d <;> simp [num4, h1, h2, h3, h4] <;> omega

theorem num4_eq_some {a b c d : Char} {v : ℕ} :
    num4 a b c d = some v ↔
      a.isDigit = true ∧ b.isDigit = true ∧ c.isDigit = true ∧ d.isDigit = true ∧
      v = 1000 * (a.toNat - 48) + 100 * (b.toNat - 48) + 10 * (c.toNat - 48) +
        (d.toNat - 48) := by
  constructor
  · intro h
    obtain ⟨x, y, z, w, hx, hy, hz, hw, hv⟩ := num4_eq_some'.mp h
    obtain ⟨hxd, hxv⟩ := dig?_eq_some.mp hx
    obtain ⟨hyd, hyv⟩ := dig?_eq_some.mp hy
    obtain ⟨hzd, hzv⟩ := dig?_eq_some.mp hz
    obtain ⟨hwd, hwv⟩ := dig?_eq_some.mp hw
    exact ⟨hxd, hyd, hzd, hwd, by omega⟩
  · rintro ⟨ha, hb, hc, hd, hv⟩
    exact num4_eq_some'.mpr ⟨_, _, _, _, dig?_eq_some.mpr ⟨ha, rfl⟩,
      dig?_eq_some.mpr ⟨hb, rfl⟩, dig?_eq_some.mpr ⟨hc, rfl⟩,
      dig?_eq_some.mpr ⟨hd, rfl⟩, by omega⟩

theorem num2_eq_some' {a b : Char} {v : ℕ} :
    num2 a b = some v ↔
      ∃ x y, dig? a = some x ∧ dig? b = some y ∧ v = 10 * x + y := by
  cases h1 : dig? a <;> cases h2 : dig? b <;>
    simp [num2, h1, h2] <;> omega

theorem num2_eq_some {a b : Char} {v : ℕ} :
    num2 a b = some v ↔
      a.isDigit = true ∧ b.isDigit = true ∧
      v = 10 * (a.toNat - 48) + (b.toNat - 48) := by
  constructor
  · intro h
    obtain ⟨x, y, hx, hy, hv⟩ := num2_eq_some'.mp h
    obtain ⟨hxd, hxv⟩ := dig?_eq_some.mp hx
    obtain ⟨hyd, hyv⟩ := dig?_eq_some.mp hy
    exact ⟨hxd, hyd, by omega⟩
  · rintro ⟨ha, hb, hv⟩
    exact num2_eq_some'.mpr ⟨_, _, dig?_eq_some.mpr ⟨ha, rfl⟩,
      dig?_eq_some.mpr ⟨hb, rfl⟩, by omega⟩

theorem month2_eq_some {a b : Char} {v : ℕ} :
    month2 a b = some v ↔
      a.isDigit = true ∧ b.isDigit = true ∧
      v = 10 * (a.toNat - 48) + (b.toNat - 48) ∧ 1 ≤ v ∧ v ≤ 12 := by
  cases h1 : num2 a b with
  | none =>
    simp only [month2, h1]
    constructor
    · intro h2
      exact absurd h2 (by simp)
    · rintro ⟨ha, hb, hv, -⟩
      have h3 : num2 a b = some v := num2_eq_some.mpr ⟨ha, hb, hv⟩
      rw [h1] at h3
      exact absurd h3 (by simp)
  | some m =>
    simp only [month2, h1]
    obtain ⟨ha, hb, hm⟩ := num2_eq_some.mp h1
    by_cases hc : 1 ≤ m ∧ m ≤ 12
    · rw [if_pos hc]
      simp only [Option.some.injEq]
      constructor
      · rintro rfl
        exact ⟨ha, hb, hm, hc.1, hc.2⟩
      · rintro ⟨-, -, hv, -⟩
        omega
    · rw [if_neg hc]
      constructor
      · intro h2
        exact absurd h2 (by simp)
      · rintro ⟨-, -, hv, h1v, h12⟩
        exact absurd ⟨by omega, by omega⟩ hc

theorem day2_eq_some {a b : Char} {v : ℕ} :
    day2 a b = some v ↔
      a.isDigit = true ∧ b.isDigit = true ∧
      v = 10 * (a.toNat - 48) + (b.toNat - 48) ∧ 1 ≤ v ∧ v ≤ 31 := by
  cases h1 : num2 a b with
  | none =>
    simp only [day2, h1]
    constructor
    · intro h2
      exact absurd h2 (by simp)
    · rintro ⟨ha, hb, hv, -⟩
      have h3 : num2 a b = some v := num2_eq_some.mpr ⟨ha, hb, hv⟩
      rw [h1] at h3
      exact absurd h3 (by simp)
  | some m =>
    simp only [day2, h1]
    obtain ⟨ha, hb, hm⟩ := num2_eq_some.mp h1
    by_cases hc : 1 ≤ m ∧ m ≤ 31
    · rw [if_pos hc]
      simp only [Option.some.injEq]
      constructor
      · rintro rfl
        exact ⟨ha, hb, hm, hc.1, hc.2⟩
      · rintro ⟨-, -, hv, -⟩
        omega
    · rw [if_neg hc]
      constructor
      · intro h2
        exact absurd h2 (by simp)
      · rintro ⟨-, -, hv, h1v, h12⟩
        exact absurd ⟨by omega, by omega⟩ hc

theorem mkDate_eq_some {y m d : ℕ} {D : Date} :
    mkDate y m d = some D ↔
      (1 ≤ y ∧ 1 ≤ m ∧ m ≤ 12 ∧ 1 ≤ d ∧ d ≤ daysInMonth y m) ∧
      D = ⟨y, m, d⟩ := by
  unfold mkDate
  by_cases h : 1 ≤ y ∧ 1 ≤ m ∧ m ≤ 12 ∧ 1 ≤ d ∧ d ≤ daysInMonth y m
  · rw [if_pos h]
    simp only [Option.some.injEq]
    constructor
    · rintro rfl
      exact ⟨h, rfl⟩
    · rintro ⟨-, rfl⟩
      rfl
  · rw [if_neg h]
    constructor
    · intro h2
      exact absurd h2 (by simp)
    · rintro ⟨hc, -⟩
      exact absurd hc h

theorem ymdOf_eq_some {yv mv dv : Option ℕ} {D : Date} :
    ymdOf yv mv dv = some D ↔
      ∃ y m d, yv = some y ∧ mv = some m ∧ dv = some d ∧
        mkDate y m d = some D := by
  cases h1 : yv <;> cases h2 : mv <;> cases h3 : dv <;>
    simp [ymdOf, h1, h2, h3]

/-- Shape of a 10-character string accepted by the `%Y-%m-%d` parser:
four year digits, a dash, two month digits, a dash, two day digits, with
the parsed components given arithmetically. -/
theorem parse10_shape {cs : List Char} {D : Date} (hlen : cs.length = 10)
    (hp : parseYMD cs = some D) :
    ∃ a0 a1 a2 a3 a5 a6 a8 a9,
      cs = [a0, a1, a2, a3, '-', a5, a6, '-', a8, a9] ∧
      a0.isDigit = true ∧ a1.isDigit = true ∧ a2.isDigit = true ∧
      a3.isDigit = true ∧ a5.isDigit = true ∧ a6.isDigit = true ∧
      a8.isDigit = true ∧ a9.isDigit = true ∧
      D.y = 1000 * (a0.toNat - 48) + 100 * (a1.toNat - 48) +
        10 * (a2.toNat - 48) + (a3.toNat - 48) ∧
      D.m = 10 * (a5.toNat - 48) + (a6.toNat - 48) ∧
      D.d = 10 * (a8.toNat - 48) + (a9.toNat - 48) := by
  rcases cs with - | ⟨c0, - | ⟨c1, - | ⟨c2, - | ⟨c3, - | ⟨c4, - | ⟨c5, - |
    ⟨c6, - | ⟨c7, - | ⟨c8, - | ⟨c9, rest⟩⟩⟩⟩⟩⟩⟩⟩⟩⟩ <;>
    try (exfalso; simp at hlen; done)
  have hrest : rest = [] := by
    simp only [List.length_cons] at hlen
    have h0 : rest.length = 0 := by omega
    exact List.eq_nil_of_length_eq_zero h0
  subst hrest
  simp only [parseYMD] at hp
  by_cases hdash : c4 = '-' ∧ c7 = '-'
  · obtain ⟨hd1, hd2⟩ := hdash
    subst hd1
    subst hd2
    rw [if_pos ⟨rfl, rfl⟩] at hp
    rw [ymdOf_eq_some] at hp
    obtain ⟨y, m, d, hy, hm, hd, hmk⟩ := hp
    obtain ⟨hy0, hy1, hy2, hy3, hyv⟩ := num4_eq_some.mp hy
    obtain ⟨hm0, hm1, hmv, -, -⟩ := month2_eq_some.mp hm
    obtain ⟨hd0, hd1, hdv, -, -⟩ := day2_eq_some.mp hd
    obtain ⟨-, rfl⟩ := mkDate_eq_some.mp hmk
    exact ⟨c0, c1, c2, c3, c5, c6, c8, c9, rfl, hy0, hy1, hy2, hy3, hm0, hm1,
      hd0, hd1, by simp [hyv], by simp [hmv], by simp [hdv]⟩
  · rw [if_neg hdash] at hp
    exact absurd hp (by simp)

/-- For two parseable 10-character date strings, Python string order
coincides with chronological (y, m, d) order. -/
theorem charsLt_parse10 {cs1 cs2 : List Char} {d1 d2 : Date}
    (h1 : cs1.length = 10) (h2 : cs2.length = 10)
    (hp1 : parseYMD cs1 = some d1) (hp2 : parseYMD cs2 = some d2) :
    charsLt cs1 cs2 = dateLtB d1 d2 := by
  obtain ⟨a0, a1, a2, a3, a5, a6, a8, a9, rfl, da0, da1, da2, da3, da5, da6,
    da8, da9, hy1, hm1, hd1⟩ := parse10_shape h1 hp1
  obtain ⟨b0, b1, b2, b3, b5, b6, b8, b9, rfl, db0, db1, db2, db3, db5, db6,
    db8, db9, hy2, hm2, hd2⟩ := parse10_shape h2 hp2
  obtain ⟨ba0l, ba0r⟩ := digit_bounds da0
  obtain ⟨ba1l, ba1r⟩ := digit_bounds da1
  obtain ⟨ba2l, ba2r⟩ := digit_bounds da2
  obtain ⟨ba3l, ba3r⟩ := digit_bounds da3
  obtain ⟨ba5l, ba5r⟩ := digit_bounds da5
  obtain ⟨ba6l, ba6r⟩ := digit_bounds da6
  obtain ⟨ba8l, ba8r⟩ := digit_bounds da8
  obtain ⟨ba9l, ba9r⟩ := digit_bounds da9
  obtain ⟨bb0l, bb0r⟩ := digit_bounds db0
  obtain ⟨bb1l, bb1r⟩ := digit_bounds db1
  obtain ⟨bb2l, bb2r⟩ := digit_bounds db2
  obtain ⟨bb3l, bb3r⟩ := digit_bounds db3
  obtain ⟨bb5l, bb5r⟩ := digit_bounds db5
  obtain ⟨bb6l, bb6r⟩ := digit_bounds db6
  obtain ⟨bb8l, bb8r⟩ := digit_bounds db8
  obtain ⟨bb9l, bb9r⟩ := digit_bounds db9
  have hiff : charsLt [a0, a1, a2, a3, '-', a5, a6, '-', a8, a9]
      [b0, b1, b2, b3, '-', b5, b6, '-', b8, b9] = true ↔
      dateLtB d1 d2 = true := by
    simp only [charsLt, chLt, dateLtB, Bool.or_eq_true, Bool.and_eq_true,
      decide_eq_true_eq, beq_iff_eq, char_eq_iff, lt_self_iff_false,
      Bool.false_eq_true, false_or, true_and, and_false, or_false]
    omega
  rcases Bool.eq_false_or_eq_true (charsLt [a0, a1, a2, a3, '-', a5, a6, '-', a8, a9]
      [b0, b1, b2, b3, '-', b5, b6, '-', b8, b9]) with h | h <;>
    rcases Bool.eq_false_or_eq_true (dateLtB d1 d2) with h3 | h3 <;>
      simp_all

theorem as_iso10J_len {ov : Option JVal} {e : String}
    (h : as_iso10J ov = some e) : e.data.length = 10 := by
  cases ov with
  | none => simp [as_iso10J] at h
  | some jv =>
    cases jv with
    | num v => simp [as_iso10J] at h
    | null => simp [as_iso10J] at h
    | str s =>
      simp only [as_iso10J] at h
      by_cases hl : 10 ≤ pyLen s
      · rw [if_pos hl] at h
        have he : e = pyTake s 10 := (Option.some.inj h).symm
        subst he
        simp only [pyTake, List.length_take]
        unfold pyLen at hl
        omega
      · rw [if_neg hl] at h
        exact absurd h (by simp)

theorem strptimeYMD_eq_parse_data {e : String} (h : e.data.length = 10) :
    strptimeYMD e = parseYMD e.data := by
  unfold strptimeYMD pyTake
  have h2 : e.data.take 10 = e.data := List.take_of_length_le (by omega)
  rw [h2]

/-- The maximum picked by the anchor selector's key sort. -/
theorem pickBestEnd_spec (cov : String → ℕ) (keys : List String) (best : String)
    (h : pickBestEnd cov keys = some best) :
    best ∈ keys ∧ ∀ e ∈ keys, scoreLtB (cov best, best) (cov e, e) = false := by
  cases keys with
  | nil => simp [pickBestEnd] at h
  | cons k ks =>
    simp only [pickBestEnd, Option.some.injEq] at h
    obtain ⟨hmem, hacc, hall⟩ :=
      foldl_pick_spec (fun a b => scoreLtB (cov a, a) (cov b, b))
        (fun _ _ _ ha hb => scoreLtB_trans ha hb)
        (fun _ => scoreLtB_irrefl _)
        (fun _ _ _ ha hb => scoreLtB_negtrans ha hb) ks k
    rw [h] at hmem hacc hall
    constructor
    · rcases hmem with h2 | h2
      · simp [h2]
      · simp [h2]
    · intro e he
      rcases List.mem_cons.mp he with rfl | he
      · exact hacc
      · exact hall e he

/-- Every candidate key is a 10-character, parseable date string. -/
theorem key_parse {facts : FactStore} {evd : Date} {max_age : ℕ}
    {allowed : List String} {l : List (String × EndRec)}
    (hgen : candGenGo evd max_age allowed (anchorPoints facts) [] = .ok l)
    {e : String} (he : e ∈ l.map Prod.fst) :
    e.data.length = 10 ∧ ∃ d, strptimeYMD e = some d := by
  have h2 := (candGenGo_keys evd max_age allowed (anchorPoints facts) [] l
    hgen e).mp he
  rcases h2 with h2 | ⟨up, -, r2, hstep⟩
  · simp at h2
  · obtain ⟨hend, -, d, hd, -⟩ := candStep_add_iff.mp hstep
    exact ⟨as_iso10J_len hend, d, hd⟩

/-- C3: when candidate generation succeeds, the anchor selector returns
absent iff no end survived; otherwise it returns a surviving end of
maximal coverage (ties broken towards the latest parsed date) together
with that end's recorded metadata and its coverage. -/
theorem c3_anchor_selection (facts : FactStore) (event_iso : String)
    (max_age : ℕ) (allowed : List String) (evd : Date)
    (l : List (String × EndRec))
    (hev : iso_to_date event_iso = .ok evd)
    (hgen : candGenGo evd max_age allowed (anchorPoints facts) [] = .ok l) :
    (l = [] →
      latest_report_end_within_window facts event_iso max_age allowed = .ok none) ∧
    (l ≠ [] → ∃ best r,
      latest_report_end_within_window facts event_iso max_age allowed =
        .ok (some (best, { form := r.form, fp := r.fp, filed := r.filed,
                           age_days := r.age_days,
                           coverage := coverage facts best })) ∧
      l.lookup best = some r ∧
      best ∈ l.map Prod.fst ∧
      (∀ e ∈ l.map Prod.fst, coverage facts e ≤ coverage facts best) ∧
      (∀ e ∈ l.map Prod.fst, coverage facts e = coverage facts best →
        ∀ d dbest, strptimeYMD e = some d → strptimeYMD best = some dbest →
          dateLtB dbest d = false)) := by
  constructor
  · intro hl0
    subst hl0
    simp [latest_report_end_within_window, hev, hgen, pickBestEnd]
  · intro hne
    have hk : ∃ best, pickBestEnd (coverage facts) (l.map Prod.fst) = some best := by
      cases l with
      | nil => exact absurd rfl hne
      | cons x xs =>
        exact ⟨(xs.map Prod.fst).foldl
          (fun b y => if scoreLtB (coverage facts b, b) (coverage facts y, y)
            then y else b) x.1, by simp [pickBestEnd]⟩
    obtain ⟨best, hpick⟩ := hk
    obtain ⟨hmem, hdom⟩ := pickBestEnd_spec _ _ _ hpick
    obtain ⟨r, hr⟩ := Option.isSome_iff_exists.mp
      ((lookup_isSome_iff_mem_keys best l).mpr hmem)
    refine ⟨best, r, ?_, hr, hmem, ?_, ?_⟩
    · simp only [latest_report_end_within_window, hev, hgen, hpick, hr]
    · intro e he
      have h2 := hdom e he
      simp only [scoreLtB, Bool.or_eq_false_iff, Bool.and_eq_false_iff,
        decide_eq_false_iff_not, not_lt] at h2
      exact h2.1
    · intro e he hcov d dbest hd hdbest
      have h2 := hdom e he
      simp only [scoreLtB, Bool.or_eq_false_iff, Bool.and_eq_false_iff,
        decide_eq_false_iff_not, not_lt, beq_eq_false_iff_ne, ne_eq] at h2
      have hpy : pyStrLt best e = false := by
        rcases h2.2 with h3 | h3
        · exact absurd hcov.symm h3
        · exact h3
      obtain ⟨hblen, db2, hdb2⟩ := key_parse hgen hmem
      obtain ⟨helen, de2, hde2⟩ := key_parse hgen he
      have hb : parseYMD best.data = some dbest := by
        rw [← strptimeYMD_eq_parse_data hblen]
        exact hdbest
      have hePar : parseYMD e.data = some d := by
        rw [← strptimeYMD_eq_parse_data helen]
        exact hd
      have hbridge := charsLt_parse10 hblen helen hb hePar
      unfold pyStrLt at hpy
      rw [hbridge] at hpy
      exact hpy

/-- The end-to-end store of the spec's scenario: Assets and Liabilities
reported at 2020-12-31 on a 10-K. -/
def c3Store : FactStore :=
  { tags :=
    [("Assets", [("USD", [{ endv := some (.str "2020-12-31"),
                            val := some (.num 1000), form := some "10-K" }])]),
     ("Liabilities", [("USD", [{ endv := some (.str "2020-12-31"),
                                 val := some (.num 600), form := some "10-K" }])])] }

/-- The candidate-generation output for `c3Store` (annual forms). -/
def c3L : List (String × EndRec) :=
  [("2020-12-31", { form := some "10-K", fp := none, filed := none,
                    age_days := 32 })]

theorem c3_anchor_selection_witness :
    ∃ best r,
      latest_report_end_within_window c3Store "2021-02-01" 160 ANNUAL_FORMS =
        .ok (some (best, { form := r.form, fp := r.fp, filed := r.filed,
                           age_days := r.age_days,
                           coverage := coverage c3Store best })) ∧
      c3L.lookup best = some r ∧
      best ∈ c3L.map Prod.fst ∧
      (∀ e ∈ c3L.map Prod.fst, coverage c3Store e ≤ coverage c3Store best) ∧
      (∀ e ∈ c3L.map Prod.fst, coverage c3Store e = coverage c3Store best →
        ∀ d dbest, strptimeYMD e = some d → strptimeYMD best = some dbest →
          dateLtB dbest d = false) :=
  (c3_anchor_selection c3Store "2021-02-01" 160 ANNUAL_FORMS ⟨2021, 2, 1⟩ c3L
    (by rfl) (by rfl)).2 (by decide)

/-- Store whose only anchor point sits exactly at the staleness boundary
(32 days before the event, with `max_age_days = 32`). -/
def c4Store : FactStore :=
  { tags := [("Assets",
      [("USD", [{ endv := some (.str "2020-12-31"), val := some (.num 5),
                  form := some "10-Q" }])])] }

theorem c4_candidate_generation_witness :
    ∃ up ∈ anchorPoints c4Store,
      as_iso10J up.2.endv = some "2020-12-31" ∧
      (pyUpper (orEmpty up.2.form) = "" ∨
        pyUpper (orEmpty up.2.form) ∈ QUARTERLY_FORMS) ∧
      ∃ d, strptimeYMD "2020-12-31" = some d ∧
        dateLtB ⟨2021, 2, 1⟩ d = false ∧
        0 ≤ dateDiffDays ⟨2021, 2, 1⟩ d ∧
        dateDiffDays ⟨2021, 2, 1⟩ d ≤ (32 : ℤ) :=
  (c4_candidate_generation c4Store ⟨2021, 2, 1⟩ 32 QUARTERLY_FORMS
    [("2020-12-31", { form := some "10-Q", fp := none, filed := none,
                      age_days := 32 })]
    (by rfl) "2020-12-31").mp (by decide)

/-! ## Claim C9: snapshot assembly, uniform schema and null blocks -/

/-- The field names of one prefixed block, independent of the metrics. -/
def mergeFieldNames (pre : String) : List String :=
  [pre ++ "report_end", pre ++ "age_days", pre ++ "report_form",
   pre ++ "report_fp", pre ++ "report_filed", pre ++ "coverage"]
  ++ mergeKeys.map (fun k => pre ++ k)

theorem mergeFields_names (pre : String) (m : Option CalcMetrics) :
    (mergeFields pre m).map Prod.fst = mergeFieldNames pre := by
  simp [mergeFields, mergeFieldNames, List.map_append, List.map_map,
    Function.comp]

theorem mergeFields_none_null (pre : String) :
    ∀ kv ∈ mergeFields pre none, kv.2 = none := by
  intro kv hkv
  simp only [mergeFields, Option.map_none', Option.bind_none,
    List.mem_append, List.mem_cons, List.not_mem_nil, or_false,
    List.mem_map] at hkv
  rcases hkv with (rfl | rfl | rfl | rfl | rfl | rfl) | ⟨k, -, rfl⟩ <;> rfl

/-- C9: assembly is the fixed header plus the two independently computed
prefixed blocks; the emitted key schema is fixed regardless of the store;
and a form class with no anchor contributes an all-null block (the record
is still produced — no exception on the no-anchor path). -/
theorem c9_snapshot (facts : FactStore) (event_iso : String) (max_age : ℕ)
    (qres ares : Option (String × AnchorMeta))
    (hq : latest_report_end_within_window facts event_iso max_age
      QUARTERLY_FORMS = .ok qres)
    (ha : latest_report_end_within_window facts event_iso max_age
      ANNUAL_FORMS = .ok ares) :
    build_rx_snapshot facts event_iso max_age =
      .ok ([("has_companyfacts", some (.z 1)), ("error", some (.s ""))]
        ++ mergeFields "q_" (metricsOf facts qres)
        ++ mergeFields "a_" (metricsOf facts ares)) ∧
    (∀ out, build_rx_snapshot facts event_iso max_age = .ok out →
      out.map Prod.fst =
        ["has_companyfacts", "error"] ++ mergeFieldNames "q_"
          ++ mergeFieldNames "a_") ∧
    (qres = none →
      ∀ kv ∈ mergeFields "q_" (metricsOf facts qres), kv.2 = none) := by
  have h1 : build_rx_snapshot facts event_iso max_age =
      .ok ([("has_companyfacts", some (.z 1)), ("error", some (.s ""))]
        ++ mergeFields "q_" (metricsOf facts qres)
        ++ mergeFields "a_" (metricsOf facts ares)) := by
    simp only [build_rx_snapshot, hq, ha]
  refine ⟨h1, ?_, ?_⟩
  · intro out hout
    rw [h1] at hout
    have h2 := Except.ok.inj hout
    subst h2
    simp [List.map_append, mergeFields_names]
  · rintro rfl
    exact mergeFields_none_null "q_"

/-- Store with an annual anchor and no quarterly anchor. -/
def c9Store : FactStore :=
  { tags :=
    [("Assets", [("USD", [{ endv := some (.str "2020-12-31"),
                            val := some (.num 1000), form := some "10-K" }])]),
     ("Liabilities", [("USD", [{ endv := some (.str "2020-12-31"),
                                 val := some (.num 600), form := some "10-K" }])])] }

theorem c9_snapshot_witness :
    build_rx_snapshot c9Store "2021-02-01" 160 =
      .ok ([("has_companyfacts", some (.z 1)), ("error", some (.s ""))]
        ++ mergeFields "q_" (metricsOf c9Store none)
        ++ mergeFields "a_" (metricsOf c9Store (some ("2020-12-31",
          { form := some "10-K", fp := none, filed := none,
            age_days := 32, coverage := 2 })))) :=
  (c9_snapshot c9Store "2021-02-01" 160 none
    (some ("2020-12-31", { form := some "10-K", fp := none, filed := none,
                           age_days := 32, coverage := 2 }))
    (by rfl) (by rfl)).1

/-! ## Claim C10: value resolution ignores form/filed/fp/accession -/

/-- Two raw points that agree on period-end and value (their form, filed,
fiscal-period and accession fields are unconstrained). -/
def ptSim (p q : RawPt) : Prop := p.endv = q.endv ∧ p.val = q.val

/-- Stores of identical shape whose points pairwise satisfy `ptSim`. -/
def storeSim (f g : FactStore) : Prop :=
  List.Forall₂ (fun a b => a.1 = b.1 ∧
    List.Forall₂ (fun u v => u.1 = v.1 ∧ List.Forall₂ ptSim u.2 v.2) a.2 b.2)
    f.tags g.tags

/-- Resolved points that agree on tag, unit, value and period-end. -/
def pointSim (p q : Point) : Prop :=
  p.tag = q.tag ∧ p.unit = q.unit ∧ p.val = q.val ∧ p.endd = q.endd

/-- A relation lifted to options (both absent, or both present and related). -/
def optRel {α : Type} (r : α → α → Prop) : Option α → Option α → Prop
  | none, none => True
  | some a, some b => r a b
  | _, _ => False

theorem lookup_rel {α : Type} {r : α → α → Prop} {l1 l2 : List (String × α)}
    (h : List.Forall₂ (fun a b => a.1 = b.1 ∧ r a.2 b.2) l1 l2) (k : String) :
    optRel r (l1.lookup k) (l2.lookup k) := by
  induction h with
  | nil => trivial
  | cons hab hrest ih =>
    rename_i a b l1' l2'
    rcases a with ⟨ka, va⟩
    rcases b with ⟨kb, vb⟩
    have hk : ka = kb := hab.1
    subst hk
    simp only [List.lookup]
    cases hbeq : k == ka with
    | true => exact hab.2
    | false => exact ih

theorem map_pair_rel {l1 l2 : List RawPt} (u : String)
    (h : List.Forall₂ ptSim l1 l2) :
    List.Forall₂ (fun a b : String × RawPt => a.1 = b.1 ∧ ptSim a.2 b.2)
      (l1.map (fun pt => (u, pt))) (l2.map (fun pt => (u, pt))) := by
  induction h with
  | nil => constructor
  | cons hab hrest ih => exact List.Forall₂.cons ⟨rfl, hab⟩ ih

theorem iter_sim {f g : FactStore} (h : storeSim f g) (tag : String) :
    List.Forall₂ (fun a b : String × RawPt => a.1 = b.1 ∧ ptSim a.2 b.2)
      (iter_tag_points f tag) (iter_tag_points g tag) := by
  unfold iter_tag_points
  have h2 := lookup_rel h tag
  cases h1a : f.tags.lookup tag with
  | none =>
    cases h1b : g.tags.lookup tag with
    | none => constructor
    | some u2 => rw [h1a, h1b] at h2; exact h2.elim
  | some u1 =>
    cases h1b : g.tags.lookup tag with
    | none => rw [h1a, h1b] at h2; exact h2.elim
    | some u2 =>
      rw [h1a, h1b] at h2
      clear h1a h1b
      induction h2 with
      | nil => constructor
      | cons hab hrest ih =>
        rename_i a b t1 t2
        rcases a with ⟨ua, pa⟩
        rcases b with ⟨ub, pb⟩
        have hu : ua = ub := hab.1
        subst hu
        exact List.rel_append (map_pair_rel ua hab.2) ih

theorem candOf_sim {e tag : String} {a b : String × RawPt}
    (h : a.1 = b.1 ∧ ptSim a.2 b.2) :
    optRel pointSim (candOf e tag a) (candOf e tag b) := by
  rcases a with ⟨ua, pa⟩
  rcases b with ⟨ub, pb⟩
  have hu : ua = ub := h.1
  subst hu
  have hend : pa.endv = pb.endv := h.2.1
  have hval : pa.val = pb.val := h.2.2
  cases h2 : as_iso10J pb.endv with
  | none => simp [candOf, hend, hval, h2, optRel]
  | some e2 =>
    by_cases he : e2 = e
    · subst he
      cases h3 : asNum pb.val with
      | none => simp [candOf, hend, hval, h2, h3, optRel]
      | some v =>
        simp only [candOf, hend, hval, h2, h3, if_pos rfl, Option.map_some']
        exact ⟨rfl, rfl, rfl, rfl⟩
    · simp [candOf, hend, hval, h2, he, optRel]

theorem filterMap_sim {e tag : String} {l1 l2 : List (String × RawPt)}
    (h : List.Forall₂ (fun a b : String × RawPt => a.1 = b.1 ∧ ptSim a.2 b.2)
      l1 l2) :
    List.Forall₂ pointSim (l1.filterMap (candOf e tag))
      (l2.filterMap (candOf e tag)) := by
  induction h with
  | nil => constructor
  | cons hab hrest ih =>
    rename_i a b t1 t2
    have hc := @candOf_sim e tag _ _ hab
    rw [List.filterMap_cons, List.filterMap_cons]
    cases h1 : candOf e tag a with
    | none =>
      cases h2 : candOf e tag b with
      | none => exact ih
      | some q => rw [h1, h2] at hc; exact hc.elim
    | some p =>
      cases h2 : candOf e tag b with
      | none => rw [h1, h2] at hc; exact hc.elim
      | some q =>
        rw [h1, h2] at hc
        exact List.Forall₂.cons hc ih

theorem candidatesFor_sim {f g : FactStore} (h : storeSim f g)
    (chain : List String) (e : String) :
    List.Forall₂ pointSim (candidatesFor f chain e) (candidatesFor g chain e) := by
  unfold candidatesFor
  induction chain with
  | nil => constructor
  | cons t ts ih =>
    rw [List.flatMap_cons, List.flatMap_cons]
    exact List.rel_append (filterMap_sim (iter_sim h t)) ih

theorem scoreOf_sim {u : String} {p q : Point} (h : pointSim p q) :
    scoreOf u p = scoreOf u q := by
  unfold scoreOf
  rw [h.1, h.2.1]

theorem fold_pickPt_sim (u : String) :
    ∀ {l1 l2 : List Point}, List.Forall₂ pointSim l1 l2 →
      ∀ {b1 b2 : Option Point}, optRel pointSim b1 b2 →
        optRel pointSim (l1.foldl (pickPt u) b1) (l2.foldl (pickPt u) b2) := by
  intro l1 l2 h
  induction h with
  | nil => exact fun hb => hb
  | cons hab hrest ih =>
    rename_i a b t1 t2
    intro b1 b2 hb
    rw [List.foldl_cons, List.foldl_cons]
    apply ih
    cases b1 with
    | none =>
      cases b2 with
      | none => exact hab
      | some y => exact hb.elim
    | some x =>
      cases b2 with
      | none => exact hb.elim
      | some y =>
        have hs1 : scoreOf u x = scoreOf u y := scoreOf_sim hb
        have hs2 : scoreOf u a = scoreOf u b := scoreOf_sim hab
        simp only [pickPt, hs1, hs2]
        by_cases hc : scoreLtB (scoreOf u y) (scoreOf u b) = true
        · rw [if_pos hc, if_pos hc]
          exact hab
        · rw [if_neg hc, if_neg hc]
          exact hb

theorem point_for_end_sim {f g : FactStore} (h : storeSim f g)
    (chain : List String) (e u : String) :
    optRel pointSim (point_for_end f chain e u) (point_for_end g chain e u) := by
  rw [point_for_end_eq_foldl, point_for_end_eq_foldl]
  exact fold_pickPt_sim u (candidatesFor_sim h chain e) trivial

theorem optRel_proj {o1 o2 : Option Point} (h : optRel pointSim o1 o2) :
    o1.map Point.val = o2.map Point.val ∧
    o1.map Point.tag = o2.map Point.tag ∧
    o1.map (fun p => |p.val|) = o2.map (fun p => |p.val|) := by
  cases o1 with
  | none =>
    cases o2 with
    | none => exact ⟨rfl, rfl, rfl⟩
    | some q => exact h.elim
  | some p =>
    cases o2 with
    | none => exact h.elim
    | some q =>
      obtain ⟨h1, h2, h3, h4⟩ := h
      simp [h1, h3]

theorem total_liab_sim {f g : FactStore} (h : storeSim f g) (e : String) :
    (total_liabilities_at_end f e).1 = (total_liabilities_at_end g e).1 ∧
    (total_liabilities_at_end f e).2.1 = (total_liabilities_at_end g e).2.1 := by
  have h1 := point_for_end_sim h TAG_LIAB_TOTAL e "USD"
  have h2 := point_for_end_sim h TAG_LIAB_CUR e "USD"
  have h3 := point_for_end_sim h TAG_LIAB_NONCUR e "USD"
  unfold total_liabilities_at_end
  cases hA : point_for_end f TAG_LIAB_TOTAL e with
  | some p =>
    cases hB : point_for_end g TAG_LIAB_TOTAL e with
    | none => rw [hA, hB] at h1; exact h1.elim
    | some q =>
      rw [hA, hB] at h1
      exact ⟨by simp [h1.2.2.1], by simp [h1.1]⟩
  | none =>
    cases hB : point_for_end g TAG_LIAB_TOTAL e with
    | some q => rw [hA, hB] at h1; exact h1.elim
    | none =>
      cases hC : point_for_end f TAG_LIAB_CUR e with
      | none =>
        cases hD : point_for_end g TAG_LIAB_CUR e with
        | some q => rw [hC, hD] at h2; exact h2.elim
        | none => exact ⟨rfl, rfl⟩
      | some pc =>
        cases hD : point_for_end g TAG_LIAB_CUR e with
        | none => rw [hC, hD] at h2; exact h2.elim
        | some qc =>
          rw [hC, hD] at h2
          cases hE : point_for_end f TAG_LIAB_NONCUR e with
          | none =>
            cases hF : point_for_end g TAG_LIAB_NONCUR e with
            | some q => rw [hE, hF] at h3; exact h3.elim
            | none => exact ⟨rfl, rfl⟩
          | some pn =>
            cases hF : point_for_end g TAG_LIAB_NONCUR e with
            | none => rw [hE, hF] at h3; exact h3.elim
            | some qn =>
              rw [hE, hF] at h3
              exact ⟨by simp [h2.2.2.1, h3.2.2.1], rfl⟩

theorem total_debt_sim {f g : FactStore} (h : storeSim f g) (e : String) :
    (total_debt_at_end f e).1 = (total_debt_at_end g e).1 ∧
    (total_debt_at_end f e).2.1 = (total_debt_at_end g e).2.1 := by
  have h1 := point_for_end_sim h TAG_DEBT_CUR e "USD"
  have h2 := point_for_end_sim h TAG_DEBT_LT e "USD"
  unfold total_debt_at_end
  cases hA : point_for_end f TAG_DEBT_CUR e with
  | none =>
    cases hB : point_for_end g TAG_DEBT_CUR e with
    | some q => rw [hA, hB] at h1; exact h1.elim
    | none =>
      cases hC : point_for_end f TAG_DEBT_LT e with
      | none =>
        cases hD : point_for_end g TAG_DEBT_LT e with
        | some q => rw [hC, hD] at h2; exact h2.elim
        | none => exact ⟨rfl, rfl⟩
      | some pl =>
        cases hD : point_for_end g TAG_DEBT_LT e with
        | none => rw [hC, hD] at h2; exact h2.elim
        | some ql =>
          rw [hC, hD] at h2
          exact ⟨by simp [h2.2.2.1], by simp [h2.1]⟩
  | some pc =>
    cases hB : point_for_end g TAG_DEBT_CUR e with
    | none => rw [hA, hB] at h1; exact h1.elim
    | some qc =>
      rw [hA, hB] at h1
      cases hC : point_for_end f TAG_DEBT_LT e with
      | none =>
        cases hD : point_for_end g TAG_DEBT_LT e with
        | some q => rw [hC, hD] at h2; exact h2.elim
        | none => exact ⟨by simp [h1.2.2.1], by simp [h1.1]⟩
      | some pl =>
        cases hD : point_for_end g TAG_DEBT_LT e with
        | none => rw [hC, hD] at h2; exact h2.elim
        | some ql =>
          rw [hC, hD] at h2
          exact ⟨by simp [h1.2.2.1, h2.2.2.1], by simp [h1.1, h2.1]⟩

theorem calc_metrics_sim {f g : FactStore} (h : storeSim f g) (e : String)
    (m : AnchorMeta) :
    calculate_metrics_for_report f e m = calculate_metrics_for_report g e m := by
  obtain ⟨hcv, hct, -⟩ := optRel_proj (point_for_end_sim h TAG_CASH e "USD")
  obtain ⟨hav, hat, -⟩ := optRel_proj (point_for_end_sim h TAG_ASSETS e "USD")
  obtain ⟨hacv, hact, -⟩ := optRel_proj (point_for_end_sim h TAG_ASSETS_CUR e "USD")
  obtain ⟨hlcv, hlct, -⟩ := optRel_proj (point_for_end_sim h TAG_LIAB_CUR e "USD")
  obtain ⟨harv, hart, -⟩ := optRel_proj (point_for_end_sim h TAG_AR e "USD")
  obtain ⟨hiv, hit, -⟩ := optRel_proj (point_for_end_sim h TAG_INV e "USD")
  obtain ⟨hov, hot, -⟩ := optRel_proj (point_for_end_sim h TAG_OI e "USD")
  obtain ⟨hnv, hnt, hna⟩ := optRel_proj (point_for_end_sim h TAG_INT e "USD")
  obtain ⟨hfv, hft, -⟩ := optRel_proj (point_for_end_sim h TAG_OCF e "USD")
  obtain ⟨hlv, hlt⟩ := total_liab_sim h e
  obtain ⟨hdv, hdt⟩ := total_debt_sim h e
  simp only [calculate_metrics_for_report, hcv, hct, hav, hat, hacv, hact,
    hlcv, hlct, harv, hart, hiv, hit, hov, hot, hnv, hnt, hna, hfv, hft,
    hlv, hlt, hdv, hdt]

/-- Store carrying form/filed/fp/accession metadata. -/
def c10A : FactStore :=
  { tags := [("CashAndCashEquivalentsAtCarryingValue",
      [("USD", [{ endv := some (.str "2020-12-31"), val := some (.num 100),
                  form := some "10-K", filed := some "2021-01-15",
                  fp := some "FY", accn := some "0001-21" }])])] }

/-- The same store with every form/filed/fp/accession field changed. -/
def c10B : FactStore :=
  { tags := [("CashAndCashEquivalentsAtCarryingValue",
      [("USD", [{ endv := some (.str "2020-12-31"), val := some (.num 100),
                  form := some "10-Q", filed := some "2020-06-30",
                  fp := some "Q2", accn := some "9999-88" }])])] }

/-- Store whose annual anchor is fixed by 10-K points while the only cash
point carries form 10-Q (outside the annual form set). -/
def c10FormStore : FactStore :=
  { tags :=
    [("CashAndCashEquivalentsAtCarryingValue",
      [("USD", [{ endv := some (.str "2020-12-31"), val := some (.num 100),
                  form := some "10-Q" }])]),
     ("Assets", [("USD", [{ endv := some (.str "2020-12-31"),
                            val := some (.num 1000), form := some "10-K" }])]),
     ("Liabilities", [("USD", [{ endv := some (.str "2020-12-31"),
                                 val := some (.num 600),
                                 form := some "10-K" }])])] }

/-- C10: resolved points (tag, unit, value, end) and the whole metrics
record are invariant under changes to the points' form, filed, fiscal
period and accession fields; and the allowed-forms restriction binds only
candidate generation — in `c10FormStore` the annual sub-snapshot's cash
value is supplied by a 10-Q point although the anchor's form is 10-K. -/
theorem c10_value_resolution_independent :
    (∀ f g, storeSim f g →
      (∀ chain e u, optRel pointSim (point_for_end f chain e u)
        (point_for_end g chain e u)) ∧
      (∀ e m, calculate_metrics_for_report f e m =
        calculate_metrics_for_report g e m)) ∧
    ((build_rx_snapshot c10FormStore "2021-02-01" 160).map
      (fun out => (out.lookup "a_cash_val", out.lookup "a_report_form")) =
      .ok (some (some (OVal.q 100)), some (some (OVal.s "10-K")))) ∧
    ("10-Q" ∉ ANNUAL_FORMS) := by
  refine ⟨?_, by rfl, by decide⟩
  intro f g hs
  exact ⟨fun chain e u => point_for_end_sim hs chain e u,
    fun e m => calc_metrics_sim hs e m⟩

/-- A throwaway anchor-metadata record for the C10 witness. -/
def m0 : AnchorMeta :=
  { form := none, fp := none, filed := none, age_days := 0, coverage := 0 }

theorem c10_witness :
    storeSim c10A c10B ∧
      optRel pointSim (point_for_end c10A TAG_CASH "2020-12-31" "USD")
        (point_for_end c10B TAG_CASH "2020-12-31" "USD") ∧
      calculate_metrics_for_report c10A "2020-12-31" m0 =
        calculate_metrics_for_report c10B "2020-12-31" m0 := by
  have hs : storeSim c10A c10B := by
    simp [storeSim, c10A, c10B, List.forall₂_cons, ptSim]
  exact ⟨hs,
    (c10_value_resolution_independent.1 c10A c10B hs).1 TAG_CASH "2020-12-31" "USD",
    (c10_value_resolution_independent.1 c10A c10B hs).2 "2020-12-31" m0⟩

end Rx
